import Mathlib

/-!
Verification of the evo-sim simulation engine.

This file gives a shallow embedding, in Lean 4, of the core simulation code
of the evo-sim repository (src/lib/simulation/{genome,biome,creature,world}.ts)
and proves or refutes a fixed list of claims about it.

Modelling conventions:
* JavaScript numbers are modelled as exact rationals (ℚ); the floating-point
  rounding of the source is not modelled (the spec explicitly allows this).
* `Math.random()` draws and the Box–Muller Gaussian realizations are passed in
  explicitly as oracle parameters; theorems quantify over them.
* `Math.sqrt` is passed in as an explicit function parameter `sq : ℚ → ℚ`
  (ℚ has no internal square root); all theorems about code that calls it
  quantify over `sq`, so they hold in particular for the true square root.
  Where a comparison `Math.sqrt s < t` decides control flow in code we embed
  for universally quantified theorems (the speciation threshold test), we use
  the equivalent squared comparison and prove the equivalence against
  `Real.sqrt` explicitly (`effCloseB_iff_sqrt`).
* JavaScript `Map` collections (which iterate in insertion order) are
  modelled as lists; `Uint8Array` biome grids as functions from clamped
  indices to biome ids.
-/

namespace EvoSim

/-! ### Genome (genome.ts)

A genome is 8 gene values.  `mutate` receives the realized Gaussian noise as
an explicit vector (source: `gaussianRandom() * rate` per gene).  `crossover`
receives the already-floored cut point (source: `Math.floor(Math.random()*8)`).
-/

abbrev Genome := Fin 8 → ℚ

/-- `mutate(genome, rate)` from genome.ts: each gene is perturbed by
`noise * rate` and clamped into [0,1] by `Math.max(0, Math.min(1, ...))`. -/
def mutate (genome : Genome) (rate : ℚ) (noise : Fin 8 → ℚ) : Genome :=
  fun i => max 0 (min 1 (genome i + noise i * rate))

/-- `crossover(a, b)` from genome.ts: genes before the cut point come from
`a`, from the cut point onward from `b`. -/
def crossover (a b : Genome) (point : ℕ) : Genome :=
  fun i => if (i : ℕ) < point then a i else b i

/-- The sum of squared gene differences computed by `geneticDistance` in
genome.ts before its final `Math.sqrt`. -/
def geneticDistanceSq (a b : Genome) : ℚ :=
  ∑ i : Fin 8, (a i - b i) * (a i - b i)

/-- `getSpeed`: gene 0 maps to [1,5]. -/
def getSpeed (genome : Genome) : ℚ := 1 + genome 0 * 4

/-- `getSize`: gene 1 maps to [4,14]. -/
def getSize (genome : Genome) : ℚ := 4 + genome 1 * 10

/-- `getVisionRadius`: gene 2 maps to [30,150]. -/
def getVisionRadius (genome : Genome) : ℚ := 30 + genome 2 * 120

/-- `getMetabolicRate`: gene 3 verbatim. -/
def getMetabolicRate (genome : Genome) : ℚ := genome 3

/-- `getAggression`: gene 6 verbatim. -/
def getAggression (genome : Genome) : ℚ := genome 6

/-- `getCamouflage`: gene 7 verbatim. -/
def getCamouflage (genome : Genome) : ℚ := genome 7

/-! ### Biome grid (biome.ts) -/

structure BiomeProperties where
  food : ℚ
  visibility_mod : ℚ
  move_cost : ℚ
  camo_advantage : ℚ
deriving DecidableEq

/-- The five static biome records of biome.ts
(Savanna, Dense Forest, Desert, Deep Ocean, Arctic Tundra). -/
def BIOMES : Fin 5 → BiomeProperties :=
  ![⟨1, 1, 1, 4/5⟩,
    ⟨7/5, 2/5, 13/10, 8/5⟩,
    ⟨3/10, 9/5, 4/5, 1/2⟩,
    ⟨7/10, 3/5, 1/2, 6/5⟩,
    ⟨1/2, 6/5, 8/5, 1⟩]

/-- The biome cell grid: `grid gx gy` is the biome id stored at (clamped)
cell (gx, gy).  Models the `Uint8Array` of world.ts, whose entries are always
valid biome ids (initialized to 0, painted with valid biome types). -/
abbrev BiomeGrid := ℤ → ℤ → Fin 5

/-- `getBiomeIdAt` from biome.ts: clamp the cell indices into the
120×80 grid and look up the stored biome id. -/
def getBiomeIdAt (grid : BiomeGrid) (gridX gridY : ℤ) : Fin 5 :=
  grid (max 0 (min 119 gridX)) (max 0 (min 79 gridY))

/-- `getBiomeAt` from biome.ts. -/
def getBiomeAt (grid : BiomeGrid) (gridX gridY : ℤ) : BiomeProperties :=
  BIOMES (getBiomeIdAt grid gridX gridY)

/-! ### Species ids

Species id strings of world.ts are `'primordial'` or `` `species_${n}` ``;
the template is injective in `n`, so we model them as an inductive type. -/

inductive SId where
  | primordial : SId
  | species : ℕ → SId
deriving DecidableEq, Repr

/-! ### Creatures (creature.ts, biome-aware variant — the one world.ts uses) -/

structure FoodPellet where
  x : ℚ
  y : ℚ
  energy : ℚ
deriving DecidableEq

structure Creature where
  id : ℕ
  genome : Genome
  energy : ℚ
  age : ℕ
  speciesId : SId
  ancestorId : Option ℕ
  pos : ℚ × ℚ
  vel : ℚ × ℚ
  dead : Bool
  radius : ℚ
  speed : ℚ
  visionRadius : ℚ
  metabolicRate : ℚ
  aggression : ℚ
  camouflage : ℚ
  biomeHistory : List (Fin 5)
  biomeResidencyTicks : ℕ
deriving DecidableEq

/-- The `Creature` constructor: energy 50, species `'primordial'`, dead false,
cached phenotype decoded from the genome, empty biome history.  The initial
velocity draws `(Math.random()-0.5)*2` are passed in as `vel`. -/
def mkCreature (id : ℕ) (genome : Genome) (pos vel : ℚ × ℚ)
    (ancestorId : Option ℕ) : Creature :=
  { id := id
    genome := genome
    energy := 50
    age := 0
    speciesId := SId.primordial
    ancestorId := ancestorId
    pos := pos
    vel := vel
    dead := false
    radius := getSize genome
    speed := getSpeed genome
    visionRadius := getVisionRadius genome
    metabolicRate := getMetabolicRate genome
    aggression := getAggression genome
    camouflage := getCamouflage genome
    biomeHistory := []
    biomeResidencyTicks := 0 }

/-! ### Spatial queries (world.ts) -/

/-- Squared Euclidean distance, as computed inline throughout the source
(`dx*dx + dy*dy`). -/
def distSq (p q : ℚ × ℚ) : ℚ :=
  (p.1 - q.1) * (p.1 - q.1) + (p.2 - q.2) * (p.2 - q.2)

/-- `World.getCreaturesInRadius`: every non-dead creature other than
`excludeId` whose squared distance to `pos` is at most `radius²`. -/
def getCreaturesInRadius (creatures : List Creature) (pos : ℚ × ℚ)
    (radius : ℚ) (excludeId : ℕ) : List Creature :=
  creatures.filter fun c =>
    !(c.id == excludeId) && !c.dead && decide (distSq c.pos pos ≤ radius * radius)

/-- `World.getFoodInRadius`. -/
def getFoodInRadius (pellets : List FoodPellet) (pos : ℚ × ℚ)
    (radius : ℚ) : List FoodPellet :=
  pellets.filter fun f => decide (distSq (f.x, f.y) pos ≤ radius * radius)

/-- `World.consumeFoodAt`: scan the pellet array in order; at the first
pellet within `radius`, report its energy (the single callback invocation)
and splice it out; otherwise leave the array unchanged. -/
def consumeFoodAt : List FoodPellet → ℚ × ℚ → ℚ → Option ℚ × List FoodPellet
  | [], _, _ => (none, [])
  | f :: rest, pos, radius =>
    if distSq (f.x, f.y) pos ≤ radius * radius then (some f.energy, rest)
    else
      let r := consumeFoodAt rest pos radius
      (r.1, f :: r.2)

/-- `World.spawnFoodAt`: push a pellet. -/
def spawnFoodAt (pellets : List FoodPellet) (x y energy : ℚ) : List FoodPellet :=
  pellets ++ [⟨x, y, energy⟩]

/-- The in-range test used by `consumeFoodAt`, as a Boolean predicate. -/
def inRangeB (pos : ℚ × ℚ) (radius : ℚ) (f : FoodPellet) : Bool :=
  decide (distSq (f.x, f.y) pos ≤ radius * radius)

/-- C9: `World.consumeFoodAt` removes at most one pellet: it reports the
energy of the first pellet of the array (in insertion order) lying within
`radius` of `pos` — invoking the callback exactly once — and deletes exactly
that pellet; if no pellet is in range (in particular on an empty pellet
array) it reports nothing and leaves the array unchanged. -/
theorem consumeFoodAt_first_in_range (pellets : List FoodPellet)
    (pos : ℚ × ℚ) (radius : ℚ) :
    consumeFoodAt pellets pos radius =
      ((pellets.find? (inRangeB pos radius)).map FoodPellet.energy,
        pellets.eraseP (inRangeB pos radius)) := by
  induction pellets with
  | nil => simp [consumeFoodAt]
  | cons f rest ih =>
    by_cases h : distSq (f.x, f.y) pos ≤ radius * radius
    · simp [consumeFoodAt, h, List.find?_cons, List.eraseP_cons, inRangeB]
    · simp [consumeFoodAt, h, List.find?_cons, List.eraseP_cons, inRangeB, ih]

/-! ### Creature behavior and per-tick update
(creature.ts, biome-aware variant — the one world.ts type-checks against)

All `Math.random()` draws made during one `update` call are supplied by an
`UpdateRand` oracle; `Math.sqrt` is supplied as `sq`.  Theorems quantify over
both.
-/

structure Env where
  width : ℚ
  height : ℚ
  mutationRate : ℚ

structure UpdateRand where
  /-- the per-neighbor detection draw of the `visiblePrey` filter,
  indexed by the neighbor's position in `nearby` -/
  detect : ℕ → ℚ
  /-- the attack roll compared against own aggression -/
  attackRoll : ℚ
  /-- the two wander jitter draws -/
  wjx : ℚ
  wjy : ℚ
  /-- the reproduction gate draw (compared against 0.008) -/
  reproRoll : ℚ
  /-- the mate selection draw -/
  mateDraw : ℚ
  /-- the crossover cut point draw -/
  crossDraw : ℚ
  /-- the realized Gaussian noise for the child's mutation -/
  noise : Fin 8 → ℚ
  /-- the child offset draws -/
  offX : ℚ
  offY : ℚ
  /-- the child constructor velocity draws -/
  cvx : ℚ
  cvy : ℚ

/-- The threat test of the flee branch:
`c.aggression > 0.6 && c.radius > this.radius * 0.8`. -/
def threatB (self c : Creature) : Bool :=
  decide ((3/5 : ℚ) < c.aggression) && decide (self.radius * (4/5) < c.radius)

/-- The `reduce` pattern used for nearest threat and nearest prey:
keep the accumulator unless the candidate is strictly closer to `pos`. -/
def nearestCreature (pos : ℚ × ℚ) (first : Creature) (rest : List Creature) :
    Creature :=
  rest.foldl
    (fun closest c =>
      if distSq c.pos pos < distSq closest.pos pos then c else closest)
    first

/-- The `reduce` of the non-aggressive forage branch: the running nearest
food pellet. -/
def nearestFood (pos : ℚ × ℚ) (first : FoodPellet) (rest : List FoodPellet) :
    FoodPellet :=
  rest.foldl
    (fun closest f =>
      if distSq (f.x, f.y) pos < distSq (closest.x, closest.y) pos then f
      else closest)
    first

/-- The `visiblePrey` filter of the biome-aware `Creature.update`
(biome.ts variant, hunting branch):
`c.radius < this.radius * 1.2 && Math.random() > effectiveCamouflage * 0.5`,
where `effectiveCamouflage` is the HUNTER's own camouflage times its biome's
camouflage advantage.  The fresh draw for the neighbor at index `i` of
`nearby` is `detect i`. -/
def visiblePreyBiome (selfRadius effectiveCamouflage : ℚ) (detect : ℕ → ℚ)
    (nearby : List Creature) : List Creature :=
  ((nearby.enum).filter fun p =>
      decide (p.2.radius < selfRadius * (6/5)) &&
      decide (effectiveCamouflage * (1/2) < detect p.1)).map Prod.snd

/-- The `visiblePrey` filter of the plain (non-biome) `Creature.update` in
creature.ts: `c.radius < this.radius * 1.2 && Math.random() > c.camouflage * 0.5`
— here the camouflage in the detection draw is the TARGET's. -/
def visiblePreyPlain (selfRadius : ℚ) (detect : ℕ → ℚ)
    (nearby : List Creature) : List Creature :=
  ((nearby.enum).filter fun p =>
      decide (p.2.radius < selfRadius * (6/5)) &&
      decide (p.2.camouflage * (1/2) < detect p.1)).map Prod.snd

/-- `steerToward`: direction to the target, normalized by
`Math.sqrt(dx*dx+dy*dy) || 1`, scaled to the given speed. -/
def steerVel (sq : ℚ → ℚ) (src dst : ℚ × ℚ) (spd : ℚ) : ℚ × ℚ :=
  let dx := dst.1 - src.1
  let dy := dst.2 - src.2
  let d := sq (dx * dx + dy * dy)
  let dist := if d = 0 then 1 else d
  (dx / dist * spd, dy / dist * spd)

/-- `wander`: jitter the velocity by `(Math.random()-0.5)*0.4` per axis and
renormalize (magnitude guard `|| 1`) to the given speed. -/
def wanderVel (sq : ℚ → ℚ) (R : UpdateRand) (vel : ℚ × ℚ) (spd : ℚ) :
    ℚ × ℚ :=
  let vx := vel.1 + (R.wjx - 1/2) * (2/5)
  let vy := vel.2 + (R.wjy - 1/2) * (2/5)
  let m := sq (vx * vx + vy * vy)
  let mag := if m = 0 then 1 else m
  (vx / mag * spd, vy / mag * spd)

/-- Result of the behavior decision block of `Creature.update`: the new
velocity, the attacker's energy gain, the damaged prey (if an attack landed)
and the pellet deposited if the prey was killed. -/
structure BehaviorOut where
  vel : ℚ × ℚ
  energyGain : ℚ
  preyHit : Option Creature
  killPellet : Option FoodPellet
deriving DecidableEq

/-- The behavior decision if-chain of the biome-aware `Creature.update`:
flee from the nearest threat; else (if aggressive with visible neighbors)
hunt the nearest detected prey, attacking on contact; else steer toward
food; else wander.  In the hunting fallback the steering target is
`food[0]`; in the non-aggressive branch it is the `reduce`-nearest pellet. -/
def decideBehavior (sq : ℚ → ℚ) (R : UpdateRand) (self : Creature)
    (effectiveSpeed effectiveCamouflage : ℚ) (nearby : List Creature)
    (food : List FoodPellet) : BehaviorOut :=
  match nearby.filter (threatB self) with
  | t :: ts =>
    let threat := nearestCreature self.pos t ts
    let dx := self.pos.1 - threat.pos.1
    let dy := self.pos.2 - threat.pos.2
    let d := sq (dx * dx + dy * dy)
    let dist := if d = 0 then 1 else d
    { vel := (dx / dist * effectiveSpeed, dy / dist * effectiveSpeed)
      energyGain := 0, preyHit := none, killPellet := none }
  | [] =>
    if (3/5 : ℚ) < self.aggression ∧ nearby ≠ [] then
      match visiblePreyBiome self.radius effectiveCamouflage R.detect nearby with
      | prey0 :: preyRest =>
        let prey := nearestCreature self.pos prey0 preyRest
        let dx := prey.pos.1 - self.pos.1
        let dy := prey.pos.2 - self.pos.2
        let d := sq (dx * dx + dy * dy)
        let dist := if d = 0 then 1 else d
        let vel := (dx / dist * effectiveSpeed, dy / dist * effectiveSpeed)
        if dist < self.radius + prey.radius + 2 then
          if R.attackRoll < self.aggression then
            let prey' := { prey with energy := prey.energy - 25 }
            if prey'.energy ≤ 0 then
              { vel := vel, energyGain := 18
                preyHit := some { prey' with dead := true }
                killPellet := some ⟨prey.pos.1, prey.pos.2, 20⟩ }
            else
              { vel := vel, energyGain := 18, preyHit := some prey'
                killPellet := none }
          else
            { vel := vel, energyGain := 0, preyHit := none, killPellet := none }
        else
          { vel := vel, energyGain := 0, preyHit := none, killPellet := none }
      | [] =>
        match food with
        | f :: _ =>
          { vel := steerVel sq self.pos (f.x, f.y) effectiveSpeed
            energyGain := 0, preyHit := none, killPellet := none }
        | [] =>
          { vel := wanderVel sq R self.vel effectiveSpeed
            energyGain := 0, preyHit := none, killPellet := none }
    else
      match food with
      | f :: rest =>
        let nearest := nearestFood self.pos f rest
        { vel := steerVel sq self.pos (nearest.x, nearest.y) effectiveSpeed
          energyGain := 0, preyHit := none, killPellet := none }
      | [] =>
        { vel := wanderVel sq R self.vel effectiveSpeed
          energyGain := 0, preyHit := none, killPellet := none }

/-- Result of one `Creature.update` call: the updated creature, the creature
collection after any in-place prey mutation, the pellet collection after any
kill deposit / consumption / death deposit, the optional offspring, and the
advanced id counter. -/
structure UpdateResult where
  self : Creature
  others : List Creature
  pellets : List FoodPellet
  child : Option Creature
  nextId : ℕ

/-- The movement block of `Creature.update`: step by the velocity, clamp to
world bounds, and flip the velocity sign on an axis on bounds contact. -/
def movePhase (env : Env) (c : Creature) : Creature :=
  let px := max c.radius (min (env.width - c.radius) (c.pos.1 + c.vel.1))
  let py := max c.radius (min (env.height - c.radius) (c.pos.2 + c.vel.2))
  let vx := if px ≤ c.radius ∨ env.width - c.radius ≤ px then -c.vel.1 else c.vel.1
  let vy := if py ≤ c.radius ∨ env.height - c.radius ≤ py then -c.vel.2 else c.vel.2
  { c with pos := (px, py), vel := (vx, vy) }

/-- The biome-history block of `Creature.update`: after moving, push the
current biome id when it differs from the last recorded one (ring of at
most 5, residency reset to 0), otherwise increment residency. -/
def biomeHistoryPhase (grid : BiomeGrid) (c : Creature) : Creature :=
  let currentBiomeId := getBiomeIdAt grid ⌊c.pos.1 / 10⌋ ⌊c.pos.2 / 10⌋
  let changed := match c.biomeHistory.getLast? with
    | none => true
    | some b0 => decide (b0 ≠ currentBiomeId)
  if changed then
    let h := c.biomeHistory ++ [currentBiomeId]
    { c with biomeHistory := if 5 < h.length then h.drop 1 else h
             biomeResidencyTicks := 0 }
  else { c with biomeResidencyTicks := c.biomeResidencyTicks + 1 }

/-- The feeding block of `Creature.update`: `consumeFoodAt` at the creature's
position with radius `radius + 2`; the callback caps energy at 100. -/
def feedPhase (c : Creature) (pellets : List FoodPellet) :
    Creature × List FoodPellet :=
  let con := consumeFoodAt pellets c.pos (c.radius + 2)
  (match con.1 with
   | some e => { c with energy := min 100 (c.energy + e) }
   | none => c,
   con.2)

/-- The base metabolic cost expression of `Creature.update`
(`0.05 + metabolicRate*0.08 + (radius/14)*0.04 + (speed/5)*0.04`). -/
def metabolicBase (c : Creature) : ℚ :=
  1/20 + c.metabolicRate * (2/25) + c.radius / 14 * (1/25) + c.speed / 5 * (1/25)

/-- The reproduction block of `Creature.update`: gated on energy > 80 and a
0.008-probability roll; costs 40 energy; crossover with a uniformly chosen
same-species non-dead visible mate when one exists, else mutate-only;
the child spawns near the parent and inherits its species id. -/
def reproducePhase (env : Env) (R : UpdateRand) (nextId : ℕ)
    (selfC : Creature) (nearbyA : List Creature) :
    Creature × Option Creature × ℕ :=
  if 80 < selfC.energy ∧ R.reproRoll < 1/125 then
    let selfR := { selfC with energy := selfC.energy - 40 }
    let mateOptions := nearbyA.filter fun c =>
      c.speciesId == selfR.speciesId && !c.dead
    let childGenome := match mateOptions with
      | [] => mutate selfR.genome env.mutationRate R.noise
      | m :: _ =>
        let mate := mateOptions.getD (Int.toNat ⌊R.mateDraw * mateOptions.length⌋) m
        mutate (crossover selfR.genome mate.genome (Int.toNat ⌊R.crossDraw * 8⌋))
          env.mutationRate R.noise
    let cx := max selfR.radius
      (min (env.width - selfR.radius) (selfR.pos.1 + (R.offX - 1/2) * 20))
    let cy := max selfR.radius
      (min (env.height - selfR.radius) (selfR.pos.2 + (R.offY - 1/2) * 20))
    let child := { mkCreature nextId childGenome (cx, cy)
        ((R.cvx - 1/2) * 2, (R.cvy - 1/2) * 2) (some selfR.id) with
      speciesId := selfR.speciesId }
    (selfR, some child, nextId + 1)
  else (selfC, none, nextId)

/-- The intermediate values of one `Creature.update` call, after the feeding
step and before the metabolic subtraction: the biome looked up at the
creature's cell at the start of the tick, the creature after behavior /
movement / biome history / feeding, the creature collection after any
in-place prey mutation, the pellet collection after kill deposit and
consumption, and the post-attack view of `nearby` used for mate choice. -/
structure UpdateMid where
  biome : BiomeProperties
  selfF : Creature
  creatures1 : List Creature
  pellets2 : List FoodPellet
  nearbyA : List Creature

/-- The first part of the biome-aware `Creature.update`, in source order:
biome lookup at the current cell, effective-modifier computation, radius
queries, behavior decision (with attack side effects), movement, biome
history, feeding. -/
def updateMid (env : Env) (sq : ℚ → ℚ) (grid : BiomeGrid) (R : UpdateRand)
    (creatures : List Creature) (pellets : List FoodPellet)
    (self0 : Creature) : UpdateMid :=
  let self := { self0 with age := self0.age + 1 }
  let biome := getBiomeAt grid ⌊self.pos.1 / 10⌋ ⌊self.pos.2 / 10⌋
  let effectiveVisionRadius := self.visionRadius * biome.visibility_mod
  let effectiveSpeed := self.speed * (1 / biome.move_cost)
  let effectiveCamouflage := self.camouflage * biome.camo_advantage
  let nearby := getCreaturesInRadius creatures self.pos effectiveVisionRadius self.id
  let food := getFoodInRadius pellets self.pos effectiveVisionRadius
  let b := decideBehavior sq R self effectiveSpeed effectiveCamouflage nearby food
  let selfE := { self with energy := self.energy + b.energyGain, vel := b.vel }
  let creatures1 := match b.preyHit with
    | some p => creatures.map fun c => if c.id = p.id then p else c
    | none => creatures
  let pellets1 := match b.killPellet with
    | some kp => spawnFoodAt pellets kp.x kp.y kp.energy
    | none => pellets
  let fed := feedPhase (biomeHistoryPhase grid (movePhase env selfE)) pellets1
  let nearbyA := match b.preyHit with
    | some p => nearby.map fun c => if c.id = p.id then p else c
    | none => nearby
  ⟨biome, fed.1, creatures1, fed.2, nearbyA⟩

/-- The last part of the biome-aware `Creature.update`, in source order:
metabolic subtraction, death check (with 15-energy pellet deposit at the
creature's last position) and the reproduction block. -/
def updateTail (env : Env) (R : UpdateRand) (nextId : ℕ) (mid : UpdateMid) :
    UpdateResult :=
  let selfC := { mid.selfF with
    energy := mid.selfF.energy - metabolicBase mid.selfF * mid.biome.move_cost }
  if selfC.energy ≤ 0 then
    let selfD := { selfC with dead := true }
    ⟨selfD, mid.creatures1,
      spawnFoodAt mid.pellets2 selfD.pos.1 selfD.pos.2 15, none, nextId⟩
  else
    let rep := reproducePhase env R nextId selfC mid.nearbyA
    ⟨rep.1, mid.creatures1, mid.pellets2, rep.2.1, rep.2.2⟩

/-- The biome-aware `Creature.update`, composed of `updateMid` (behavior,
attack, movement, biome history, feeding) and `updateTail` (metabolic cost,
death, reproduction). -/
def update (env : Env) (sq : ℚ → ℚ) (grid : BiomeGrid) (R : UpdateRand)
    (nextId : ℕ) (creatures : List Creature) (pellets : List FoodPellet)
    (self0 : Creature) : UpdateResult :=
  if self0.dead then ⟨self0, creatures, pellets, none, nextId⟩ else
  updateTail env R nextId (updateMid env sq grid R creatures pellets self0)

/-! ### Energy accounting of `update` (claims C3 and C8) -/

/-- Specification projection: the creature's energy immediately after the
feeding step of `update` (attack gain, then capped pellet gain), just before
the metabolic subtraction. -/
def energyAfterFeeding (env : Env) (sq : ℚ → ℚ) (grid : BiomeGrid)
    (R : UpdateRand) (creatures : List Creature) (pellets : List FoodPellet)
    (self0 : Creature) : ℚ :=
  (updateMid env sq grid R creatures pellets self0).selfF.energy

lemma movePhase_metabolicRate (env : Env) (c : Creature) :
    (movePhase env c).metabolicRate = c.metabolicRate := rfl

lemma movePhase_radius (env : Env) (c : Creature) :
    (movePhase env c).radius = c.radius := rfl

lemma movePhase_speed (env : Env) (c : Creature) :
    (movePhase env c).speed = c.speed := rfl

lemma biomeHistoryPhase_metabolicRate (grid : BiomeGrid) (c : Creature) :
    (biomeHistoryPhase grid c).metabolicRate = c.metabolicRate := by
  unfold biomeHistoryPhase
  split <;> simp [apply_ite Creature.metabolicRate]

lemma biomeHistoryPhase_radius (grid : BiomeGrid) (c : Creature) :
    (biomeHistoryPhase grid c).radius = c.radius := by
  unfold biomeHistoryPhase
  split <;> simp [apply_ite Creature.radius]

lemma biomeHistoryPhase_speed (grid : BiomeGrid) (c : Creature) :
    (biomeHistoryPhase grid c).speed = c.speed := by
  unfold biomeHistoryPhase
  split <;> simp [apply_ite Creature.speed]

lemma feedPhase_metabolicRate (c : Creature) (ps : List FoodPellet) :
    (feedPhase c ps).1.metabolicRate = c.metabolicRate := by
  unfold feedPhase
  rcases h : (consumeFoodAt ps c.pos (c.radius + 2)).1 with _ | e <;> simp [h]

lemma feedPhase_radius (c : Creature) (ps : List FoodPellet) :
    (feedPhase c ps).1.radius = c.radius := by
  unfold feedPhase
  rcases h : (consumeFoodAt ps c.pos (c.radius + 2)).1 with _ | e <;> simp [h]

lemma feedPhase_speed (c : Creature) (ps : List FoodPellet) :
    (feedPhase c ps).1.speed = c.speed := by
  unfold feedPhase
  rcases h : (consumeFoodAt ps c.pos (c.radius + 2)).1 with _ | e <;> simp [h]

lemma updateMid_selfF_metabolicRate (env : Env) (sq : ℚ → ℚ)
    (grid : BiomeGrid) (R : UpdateRand) (creatures : List Creature)
    (pellets : List FoodPellet) (self0 : Creature) :
    (updateMid env sq grid R creatures pellets self0).selfF.metabolicRate
      = self0.metabolicRate := by
  unfold updateMid
  simp only [feedPhase_metabolicRate, biomeHistoryPhase_metabolicRate,
    movePhase_metabolicRate]

lemma updateMid_selfF_radius (env : Env) (sq : ℚ → ℚ)
    (grid : BiomeGrid) (R : UpdateRand) (creatures : List Creature)
    (pellets : List FoodPellet) (self0 : Creature) :
    (updateMid env sq grid R creatures pellets self0).selfF.radius
      = self0.radius := by
  unfold updateMid
  simp only [feedPhase_radius, biomeHistoryPhase_radius, movePhase_radius]

lemma updateMid_selfF_speed (env : Env) (sq : ℚ → ℚ)
    (grid : BiomeGrid) (R : UpdateRand) (creatures : List Creature)
    (pellets : List FoodPellet) (self0 : Creature) :
    (updateMid env sq grid R creatures pellets self0).selfF.speed
      = self0.speed := by
  unfold updateMid
  simp only [feedPhase_speed, biomeHistoryPhase_speed, movePhase_speed]

lemma updateMid_biome (env : Env) (sq : ℚ → ℚ)
    (grid : BiomeGrid) (R : UpdateRand) (creatures : List Creature)
    (pellets : List FoodPellet) (self0 : Creature) :
    (updateMid env sq grid R creatures pellets self0).biome
      = getBiomeAt grid ⌊self0.pos.1 / 10⌋ ⌊self0.pos.2 / 10⌋ := rfl

lemma reproducePhase_energy (env : Env) (R : UpdateRand) (nextId : ℕ)
    (c : Creature) (na : List Creature) :
    (reproducePhase env R nextId c na).1.energy =
      c.energy -
        (if (reproducePhase env R nextId c na).2.1.isSome then 40 else 0) := by
  unfold reproducePhase
  split
  · simp
  · simp

lemma reproducePhase_dead (env : Env) (R : UpdateRand) (nextId : ℕ)
    (c : Creature) (na : List Creature) :
    (reproducePhase env R nextId c na).1.dead = c.dead := by
  unfold reproducePhase
  split
  · rfl
  · rfl

lemma updateTail_energy (env : Env) (R : UpdateRand) (nextId : ℕ)
    (mid : UpdateMid)
    (hsurv : (updateTail env R nextId mid).self.dead = false) :
    (updateTail env R nextId mid).self.energy =
      mid.selfF.energy - metabolicBase mid.selfF * mid.biome.move_cost
      - (if (updateTail env R nextId mid).child.isSome then 40 else 0) := by
  simp only [updateTail] at hsurv ⊢
  split at hsurv <;> rename_i h
  · simp at hsurv
  · rw [if_neg h]
    dsimp only
    rw [reproducePhase_energy]

/-- C3: for every creature surviving its per-tick update, the energy
subtracted as metabolic cost equals
`(0.05 + metabolicRate*0.08 + (radius/14)*0.04 + (speed/5)*0.04)` times the
movement-cost multiplier of the biome at the creature's current cell (the
cell it occupies when `update` looks its biome up, before moving), where
metabolicRate, radius and speed are the decoded phenotype values of its
genome.  The surviving creature's energy is its post-feeding energy minus
exactly this cost (minus the separate 40-energy reproduction cost exactly
when an offspring is produced). -/
theorem update_metabolic_cost (env : Env) (sq : ℚ → ℚ) (grid : BiomeGrid)
    (R : UpdateRand) (nextId : ℕ) (creatures : List Creature)
    (pellets : List FoodPellet) (self0 : Creature)
    (halive : self0.dead = false)
    (hmr : self0.metabolicRate = getMetabolicRate self0.genome)
    (hrad : self0.radius = getSize self0.genome)
    (hspd : self0.speed = getSpeed self0.genome)
    (hsurv : (update env sq grid R nextId creatures pellets self0).self.dead
      = false) :
    (update env sq grid R nextId creatures pellets self0).self.energy =
      energyAfterFeeding env sq grid R creatures pellets self0
      - (1/20 + getMetabolicRate self0.genome * (2/25)
          + getSize self0.genome / 14 * (1/25)
          + getSpeed self0.genome / 5 * (1/25))
        * (getBiomeAt grid ⌊self0.pos.1 / 10⌋ ⌊self0.pos.2 / 10⌋).move_cost
      - (if (update env sq grid R nextId creatures pellets self0).child.isSome
          then 40 else 0) := by
  have hupd : update env sq grid R nextId creatures pellets self0 =
      updateTail env R nextId (updateMid env sq grid R creatures pellets self0) := by
    unfold update
    rw [if_neg (by simp [halive])]
  rw [hupd] at hsurv ⊢
  set mid := updateMid env sq grid R creatures pellets self0 with hmid
  have hbase : metabolicBase mid.selfF =
      1/20 + getMetabolicRate self0.genome * (2/25)
        + getSize self0.genome / 14 * (1/25)
        + getSpeed self0.genome / 5 * (1/25) := by
    rw [metabolicBase, updateMid_selfF_metabolicRate, updateMid_selfF_radius,
      updateMid_selfF_speed, hmr, hrad, hspd]
  have hbiome : mid.biome =
      getBiomeAt grid ⌊self0.pos.1 / 10⌋ ⌊self0.pos.2 / 10⌋ := updateMid_biome ..
  have hfeed : energyAfterFeeding env sq grid R creatures pellets self0 =
      mid.selfF.energy := rfl
  rw [hfeed, ← hbase, ← hbiome]
  exact updateTail_energy env R nextId mid hsurv

/-- Concrete creature for the C3 witness: all-zero genome, at (100,100). -/
def c3Creature : Creature := mkCreature 1 (fun _ => 0) (100, 100) (0, 0) none

/-- Oracle for the C3 witness (wander scenario; reproduction roll fails). -/
def c3R : UpdateRand :=
  ⟨fun _ => 0, 1, 1/2, 1/2, 1, 0, 0, fun _ => 0, 1/2, 1/2, 1/2, 1/2⟩

/-- Witness for C3 at a concrete surviving creature. -/
theorem update_metabolic_cost_witness :
    (c3Creature.dead = false ∧
      c3Creature.metabolicRate = getMetabolicRate c3Creature.genome ∧
      c3Creature.radius = getSize c3Creature.genome ∧
      c3Creature.speed = getSpeed c3Creature.genome ∧
      (update ⟨1200, 800, 1/50⟩ (fun _ => 0) (fun _ _ => 0) c3R 10 [c3Creature]
        [] c3Creature).self.dead = false) ∧
    (update ⟨1200, 800, 1/50⟩ (fun _ => 0) (fun _ _ => 0) c3R 10 [c3Creature]
        [] c3Creature).self.energy =
      energyAfterFeeding ⟨1200, 800, 1/50⟩ (fun _ => 0) (fun _ _ => 0) c3R
        [c3Creature] [] c3Creature
      - (1/20 + getMetabolicRate c3Creature.genome * (2/25)
          + getSize c3Creature.genome / 14 * (1/25)
          + getSpeed c3Creature.genome / 5 * (1/25))
        * (getBiomeAt (fun _ _ => 0) ⌊c3Creature.pos.1 / 10⌋
            ⌊c3Creature.pos.2 / 10⌋).move_cost
      - (if (update ⟨1200, 800, 1/50⟩ (fun _ => 0) (fun _ _ => 0) c3R 10
            [c3Creature] [] c3Creature).child.isSome then 40 else 0) :=
  ⟨⟨by with_unfolding_all decide, by with_unfolding_all decide,
      by with_unfolding_all decide, by with_unfolding_all decide,
      by with_unfolding_all decide⟩,
    update_metabolic_cost ⟨1200, 800, 1/50⟩ (fun _ => 0) (fun _ _ => 0) c3R 10
      [c3Creature] [] c3Creature (by with_unfolding_all decide)
      (by with_unfolding_all decide) (by with_unfolding_all decide)
      (by with_unfolding_all decide) (by with_unfolding_all decide)⟩

/-! ### C1: prey detection and camouflage -/

/-- C1 failing input, hunter: all-zero genome (camouflage 0, radius 4). -/
def c1Hunter : Creature := mkCreature 1 (fun _ => 0) (100, 100) (0, 0) none

/-- C1 failing input, target: fully camouflaged (gene 7 = 1), radius 4. -/
def c1Target : Creature :=
  mkCreature 2 (fun i => if i = 7 then 1 else 0) (103, 104) (0, 0) none

/-- C1: the claim predicts that with a detection draw of 0.3 this fully
camouflaged target (0.3 ≤ 0.5×camouflage = 0.5) is missed; the biome-aware
code instead detects it, because its filter compares the draw against the
HUNTER's own effective camouflage (here 0×0.8 = 0), not the target's.  The
plain creature.ts variant of the same filter (which uses the target's
camouflage, as the spec describes) does miss it. -/
theorem huntingDetection_ignores_target_camouflage :
    c1Target ∈ visiblePreyBiome c1Hunter.radius
        (c1Hunter.camouflage * (BIOMES 0).camo_advantage) (fun _ => 3/10)
        [c1Target] ∧
    ¬ (c1Target.camouflage * (1/2) < (3/10 : ℚ)) ∧
    c1Target ∉ visiblePreyPlain c1Hunter.radius (fun _ => 3/10) [c1Target] := by
  with_unfolding_all decide

/-! ### C2: forage steering targets -/

/-- C2 hunter: aggressive (gene 6 = 0.8) and fully camouflaged (gene 7 = 1),
so its own effective camouflage makes it miss its prey and fall through to
the forage fallback. -/
def c2Hunter : Creature :=
  mkCreature 1 (fun i => if i = 6 then 4/5 else if i = 7 then 1 else 0)
    (100, 100) (0, 0) none

/-- C2 visible neighbor (not detected as prey with draw 0.3 < 0.4). -/
def c2Prey : Creature := mkCreature 2 (fun _ => 0) (101, 100) (0, 0) none

/-- C2 oracle: detection draws 0.3; reproduction roll fails. -/
def c2R : UpdateRand :=
  ⟨fun _ => 3/10, 1, 1/2, 1/2, 1, 0, 0, fun _ => 0, 1/2, 1/2, 1/2, 1/2⟩

/-- Square-root table for the C2 counterexample; it agrees with the true
square root on the two values at which it is consulted (25 and 1). -/
def c2sq : ℚ → ℚ := fun q => if q = 25 then 5 else if q = 1 then 1 else 0

/-- C2 counterexample: a hunting creature whose prey filter comes back empty
falls back to foraging and steers toward `food[0]` — here the pellet at
(103,104), distance 5, giving velocity (3/5, 4/5) — even though the other
visible pellet at (100,101) is strictly closer; steering toward the nearest
pellet would give velocity (0, 1) instead. -/
theorem forage_fallback_first_not_nearest :
    (update ⟨1200, 800, 1/50⟩ c2sq (fun _ _ => 0) c2R 10 [c2Hunter, c2Prey]
        [⟨103, 104, 10⟩, ⟨100, 101, 10⟩] c2Hunter).self.vel = (3/5, 4/5) ∧
    distSq (100, 101) c2Hunter.pos < distSq (103, 104) c2Hunter.pos ∧
    (update ⟨1200, 800, 1/50⟩ c2sq (fun _ _ => 0) c2R 10 [c2Hunter, c2Prey]
        [⟨103, 104, 10⟩, ⟨100, 101, 10⟩] c2Hunter).self.vel ≠
      steerVel c2sq c2Hunter.pos (100, 101) 1 := by
  with_unfolding_all decide

/-- C2 (amended): in the plain foraging branch (creature not aggressive or no
neighbors visible), the steering target `nearestFood` — the `reduce` over the
visible food list that `update` uses — is a member of the visible food list
whose distance to the creature is minimal; the hunting fallback instead
steers toward `food[0]`, the first pellet of the visible list. -/
theorem forage_nearest_minimizes (pos : ℚ × ℚ) (f : FoodPellet)
    (rest : List FoodPellet) :
    nearestFood pos f rest ∈ f :: rest ∧
    ∀ g ∈ f :: rest,
      distSq ((nearestFood pos f rest).x, (nearestFood pos f rest).y) pos
        ≤ distSq (g.x, g.y) pos := by
  induction rest generalizing f with
  | nil =>
    refine ⟨List.mem_singleton_self f, ?_⟩
    intro g hg
    rw [List.mem_singleton] at hg
    subst hg
    exact le_refl _
  | cons b t ih =>
    have hstep : nearestFood pos f (b :: t) =
        nearestFood pos
          (if distSq (b.x, b.y) pos < distSq (f.x, f.y) pos then b else f)
          t := rfl
    by_cases hbf : distSq (b.x, b.y) pos < distSq (f.x, f.y) pos
    · rw [hstep, if_pos hbf]
      obtain ⟨hmem, hmin⟩ := ih b
      refine ⟨?_, ?_⟩
      · rcases List.mem_cons.mp hmem with h | h
        · rw [h]
          exact List.mem_cons_of_mem f (List.mem_cons_self b t)
        · exact List.mem_cons_of_mem f (List.mem_cons_of_mem b h)
      · intro g hg
        rcases List.mem_cons.mp hg with h | h
        · rw [h]
          exact le_trans (hmin b (List.mem_cons_self b t)) (le_of_lt hbf)
        · exact hmin g h
    · rw [hstep, if_neg hbf]
      obtain ⟨hmem, hmin⟩ := ih f
      refine ⟨?_, ?_⟩
      · rcases List.mem_cons.mp hmem with h | h
        · rw [h]
          exact List.mem_cons_self f (b :: t)
        · exact List.mem_cons_of_mem f (List.mem_cons_of_mem b h)
      · intro g hg
        rcases List.mem_cons.mp hg with h | h
        · rw [h]
          exact hmin f (List.mem_cons_self f t)
        · rcases List.mem_cons.mp h with h2 | h2
          · rw [h2]
            exact le_trans (hmin f (List.mem_cons_self f t)) (not_lt.mp hbf)
          · exact hmin g (List.mem_cons_of_mem f h2)

/-! ### C8: the 100-energy cap does not apply to attack gains -/

/-- C8 hunter: aggression 0.8, energy 95 (≤ 100). -/
def c8Hunter : Creature :=
  { mkCreature 1 (fun i => if i = 6 then 4/5 else 0) (100, 100) (0, 0) none with
    energy := 95 }

/-- C8 prey at the hunter's position. -/
def c8Prey : Creature := mkCreature 2 (fun _ => 0) (100, 100) (0, 0) none

/-- C8 oracle: attack roll 0 (< aggression); reproduction roll fails. -/
def c8R : UpdateRand :=
  ⟨fun _ => 1/2, 0, 1/2, 1/2, 1, 0, 0, fun _ => 0, 1/2, 1/2, 1/2, 1/2⟩

/-- C8: creature energy is not bounded above by 100 across operations: the
`min(100, ·)` cap is applied only on pellet consumption, while a successful
attack adds 18 uncapped, so a creature at energy 95 (≤ 100) ends its update
with energy strictly above 100. -/
theorem attack_energy_gain_uncapped :
    c8Hunter.energy ≤ 100 ∧
    100 < (update ⟨1200, 800, 1/50⟩ (fun _ => 0) (fun _ _ => 0) c8R 10
        [c8Hunter, c8Prey] [] c8Hunter).self.energy := by
  with_unfolding_all decide

/-- C6: every gene of the genome returned by `mutate` lies in [0,1], for
every input genome, every mutation rate and every realization of the
Gaussian noise.  (`mutate` is a pure function of its inputs — the source
allocates a fresh `Float32Array` — so the input genome is unmodified.) -/
theorem mutate_in_unit_interval (genome : Genome) (rate : ℚ)
    (noise : Fin 8 → ℚ) (i : Fin 8) :
    0 ≤ mutate genome rate noise i ∧ mutate genome rate noise i ≤ 1 := by
  refine ⟨le_max_left 0 _, max_le ?_ (min_le_left 1 _)⟩
  exact zero_le_one

/-! ### C4: the clustering pass of `World.checkSpeciation`

The pass compares `geneticDistance(seed, other) + (biomeIsolated ? 0.15 : 0)`
against the threshold 0.35, where `geneticDistance` is
`Math.sqrt(geneticDistanceSq)`.  Since the square root is strictly monotone,
the comparison is equivalent to a squared-threshold comparison, which keeps
the embedding executable; `effCloseB_iff_sqrt` proves the equivalence
against `Real.sqrt`.
-/

/-- The creature's current biome id as read by `checkSpeciation`: the last
entry of its biome history, or 0 when the history is empty. -/
def lastBiome (c : Creature) : Fin 5 := (c.biomeHistory.getLast?).getD 0

/-- The allopatric-isolation test of `checkSpeciation`: both creatures have
biome residency ≥ 200 ticks and their current biome ids differ. -/
def biomeIsolated (a b : Creature) : Bool :=
  decide (200 ≤ a.biomeResidencyTicks) && decide (200 ≤ b.biomeResidencyTicks)
    && decide (lastBiome a ≠ lastBiome b)

/-- The threshold comparison `effectiveDist < 0.35` of `checkSpeciation`:
with the isolation bonus, `sqrt s + 0.15 < 0.35 ↔ s < (0.2)² = 1/25`;
without it, `sqrt s < 0.35 ↔ s < (0.35)² = 49/400`. -/
def effCloseB (a b : Creature) : Bool :=
  if biomeIsolated a b then decide (geneticDistanceSq a.genome b.genome < 1/25)
  else decide (geneticDistanceSq a.genome b.genome < 49/400)

/-- The squared-threshold comparison `effCloseB` agrees with the source's
`Math.sqrt`-based effective-distance comparison. -/
lemma effCloseB_iff_sqrt (a b : Creature) :
    effCloseB a b = true ↔
      Real.sqrt ((geneticDistanceSq a.genome b.genome : ℚ) : ℝ)
        + (if biomeIsolated a b = true then (3/20 : ℝ) else 0) < 7/20 := by
  unfold effCloseB
  by_cases hiso : biomeIsolated a b = true
  · rw [if_pos hiso, if_pos hiso, decide_eq_true_eq]
    rw [show (7/20 : ℝ) = 1/5 + 3/20 by norm_num, add_lt_add_iff_right]
    rw [Real.sqrt_lt' (by norm_num : (0:ℝ) < 1/5)]
    rw [show ((1:ℝ)/5)^2 = ((1/25 : ℚ) : ℝ) by norm_num, Rat.cast_lt]
  · rw [if_neg hiso, if_neg hiso, decide_eq_true_eq, add_zero]
    rw [Real.sqrt_lt' (by norm_num : (0:ℝ) < 7/20)]
    rw [show ((7:ℝ)/20)^2 = ((49/400 : ℚ) : ℝ) by norm_num, Rat.cast_lt]

/-- The inner loop of the clustering pass of `checkSpeciation`: scan the full
population; every not-yet-assigned creature whose effective distance to the
seed is below the threshold joins the cluster and is marked assigned. -/
def innerPass (seed : Creature) (creatures : List Creature)
    (st : List Creature × List ℕ) : List Creature × List ℕ :=
  creatures.foldl
    (fun st other =>
      if other.id ∈ st.2 then st
      else if effCloseB seed other then (st.1 ++ [other], st.2 ++ [other.id])
      else st)
    st

/-- One step of the outer loop of the clustering pass: an already assigned
creature is skipped; an unassigned one seeds a cluster `[creature]`, is
marked assigned, and `innerPass` collects the joiners. -/
def outerStep (cs : List Creature) (st : List (List Creature) × List ℕ)
    (creature : Creature) : List (List Creature) × List ℕ :=
  if creature.id ∈ st.2 then st
  else
    let inner := innerPass creature cs ([creature], st.2 ++ [creature.id])
    (st.1 ++ [inner.1], inner.2)

/-- The clustering pass of `World.checkSpeciation` (iterating the population
in order, with an assigned set threaded through). -/
def clusterPass (creatures : List Creature) : List (List Creature) :=
  (creatures.foldl (outerStep creatures) ([], [])).1

/-- The clustering rule exactly as the claim words it: the first unassigned
creature in population order seeds a new cluster; every later-considered
unassigned creature joins that cluster exactly when its effective distance
to the seed (not to any other member) is below the threshold; the remaining
creatures are clustered recursively. -/
def specClusters : List Creature → List (List Creature)
  | [] => []
  | seed :: rest =>
    (seed :: rest.filter (fun c => effCloseB seed c)) ::
      specClusters (rest.filter (fun c => !(effCloseB seed c)))
termination_by l => l.length
decreasing_by
  simp only [List.length_cons]
  exact Nat.lt_succ_of_le (List.length_filter_le _ _)

/-- The unassigned part of a creature list, relative to an assigned-id set. -/
def unasg (A : List ℕ) (l : List Creature) : List Creature :=
  l.filter fun c => decide (c.id ∉ A)

lemma unasg_cons_mem {A : List ℕ} {x : Creature} {l : List Creature}
    (h : x.id ∈ A) : unasg A (x :: l) = unasg A l := by
  simp [unasg, List.filter_cons, h]

lemma unasg_cons_not_mem {A : List ℕ} {x : Creature} {l : List Creature}
    (h : x.id ∉ A) : unasg A (x :: l) = x :: unasg A l := by
  simp [unasg, List.filter_cons, h]

lemma inj_id_of_nodup {cs : List Creature}
    (hnd : (cs.map Creature.id).Nodup) {a b : Creature}
    (ha : a ∈ cs) (hb : b ∈ cs) (hid : a.id = b.id) : a = b :=
  List.inj_on_of_nodup_map hnd ha hb hid

/-- Characterization of the inner loop: starting from cluster `cl` and
assigned set `A`, the scan appends exactly the unassigned creatures whose
effective distance to the seed is below threshold, and marks their ids. -/
lemma innerPass_eq (seed : Creature) :
    ∀ (cs : List Creature) (cl : List Creature) (A : List ℕ),
      (cs.map Creature.id).Nodup →
      innerPass seed cs (cl, A) =
        (cl ++ cs.filter (fun c => decide (c.id ∉ A) && effCloseB seed c),
         A ++ (cs.filter (fun c => decide (c.id ∉ A) && effCloseB seed c)).map
            Creature.id) := by
  intro cs
  induction cs with
  | nil =>
    intro cl A _
    simp [innerPass]
  | cons x rest ih =>
    intro cl A hnd
    rw [List.map_cons, List.nodup_cons] at hnd
    obtain ⟨hx, hndr⟩ := hnd
    have hstep : innerPass seed (x :: rest) (cl, A) =
        innerPass seed rest
          (if x.id ∈ A then (cl, A)
           else if effCloseB seed x then (cl ++ [x], A ++ [x.id])
           else (cl, A)) := rfl
    by_cases hxA : x.id ∈ A
    · rw [hstep, if_pos hxA, ih cl A hndr]
      simp [List.filter_cons, hxA]
    · by_cases hcl : effCloseB seed x = true
      · rw [hstep, if_neg hxA, if_pos hcl, ih (cl ++ [x]) (A ++ [x.id]) hndr]
        have hPP : rest.filter
              (fun c => decide (c.id ∉ A ++ [x.id]) && effCloseB seed c) =
            rest.filter (fun c => decide (c.id ∉ A) && effCloseB seed c) := by
          apply List.filter_congr
          intro c hc
          have hne : c.id ≠ x.id := fun h =>
            hx (h ▸ List.mem_map_of_mem Creature.id hc)
          simp [List.mem_append, hne]
        rw [hPP]
        simp [List.filter_cons, hxA, hcl, List.append_assoc]
      · rw [hstep, if_neg hxA, if_neg (by simp [hcl]), ih cl A hndr]
        rw [Bool.not_eq_true] at hcl
        simp [List.filter_cons, hcl]

/-- Invariant step of the outer loop: folding the outer step over any
iteration list whose unassigned part agrees with the population's produces
exactly the clusters the claim describes. -/
lemma outer_fold_eq (cs : List Creature)
    (hnd : (cs.map Creature.id).Nodup) :
    ∀ (iter : List Creature), (iter.map Creature.id).Nodup →
      ∀ (A : List ℕ) (done : List (List Creature)),
        unasg A iter = unasg A cs →
        (iter.foldl (outerStep cs) (done, A)).1 =
          done ++ specClusters (unasg A cs) := by
  intro iter
  induction iter with
  | nil =>
    intro _ A done hinv
    rw [List.foldl_nil, ← hinv]
    simp [unasg, specClusters]
  | cons x irest ih =>
    intro hndI A done hinv
    rw [List.map_cons, List.nodup_cons] at hndI
    obtain ⟨hxir, hndirest⟩ := hndI
    rw [List.foldl_cons]
    by_cases hxA : x.id ∈ A
    · rw [show outerStep cs (done, A) x = (done, A) from if_pos hxA]
      have hinv' : unasg A irest = unasg A cs := by
        rw [← hinv, unasg_cons_mem hxA]
      exact ih hndirest A done hinv'
    · have houter : outerStep cs (done, A) x =
          (done ++ [(innerPass x cs ([x], A ++ [x.id])).1],
            (innerPass x cs ([x], A ++ [x.id])).2) := by
        unfold outerStep
        rw [if_neg hxA]
      rw [houter, innerPass_eq x cs [x] (A ++ [x.id]) hnd]
      set T := unasg A irest with hT
      have hxT : unasg A cs = x :: T := by
        rw [← hinv, unasg_cons_not_mem hxA]
      have hTmem : ∀ c ∈ T, c ∈ cs ∧ c.id ∉ A := by
        intro c hc
        have hcx : c ∈ unasg A cs := by
          rw [hxT]
          exact List.mem_cons_of_mem x hc
        rw [unasg, List.mem_filter, decide_eq_true_eq] at hcx
        exact hcx
      have hTid : ∀ c ∈ T, c.id ≠ x.id := by
        intro c hc h
        have : c ∈ irest := List.mem_of_mem_filter hc
        exact hxir (h ▸ List.mem_map_of_mem Creature.id this)
      have hK1 : cs.filter
            (fun c => decide (c.id ∉ A ++ [x.id]) && effCloseB x c) =
          T.filter (fun c => effCloseB x c) := by
        have h1 : cs.filter
              (fun c => decide (c.id ∉ A ++ [x.id]) && effCloseB x c) =
            (cs.filter (fun c => decide (c.id ∉ A))).filter
              (fun c => decide (¬c.id = x.id) && effCloseB x c) := by
          rw [List.filter_filter]
          apply List.filter_congr
          intro c _
          by_cases h1 : c.id ∈ A <;> by_cases h2 : c.id = x.id <;>
            simp [List.mem_append, h1, h2]
        rw [h1]
        have h2 : cs.filter (fun c => decide (c.id ∉ A)) = x :: T := hxT
        rw [h2, List.filter_cons]
        simp only [decide_not, decide_eq_true_eq, Bool.not_eq_true]
        rw [if_neg (by simp)]
        apply List.filter_congr
        intro c hc
        simp [hTid c hc]
      set A' := (A ++ [x.id]) ++
        (cs.filter
          (fun c => decide (c.id ∉ A ++ [x.id]) && effCloseB x c)).map
          Creature.id with hA'
      have hmemA' : ∀ c : Creature, c.id ∈ A' ↔
          c.id ∈ A ∨ c.id = x.id ∨
            c.id ∈ (T.filter (fun c => effCloseB x c)).map Creature.id := by
        intro c
        rw [hA', hK1]
        simp [List.mem_append, or_assoc]
      have hsel : ∀ c ∈ T,
          (c.id ∈ (T.filter (fun c => effCloseB x c)).map Creature.id) ↔
            effCloseB x c = true := by
        intro c hc
        constructor
        · intro h
          rw [List.mem_map] at h
          obtain ⟨z, hz, hzid⟩ := h
          rw [List.mem_filter] at hz
          have hzc : z = c :=
            inj_id_of_nodup hnd (hTmem z hz.1).1 (hTmem c hc).1 hzid
          exact hzc ▸ hz.2
        · intro h
          exact List.mem_map_of_mem Creature.id
            (List.mem_filter.mpr ⟨hc, h⟩)
      have hsplit : ∀ l : List Creature, unasg A' l = (unasg A l).filter
          (fun c => decide (¬c.id = x.id) &&
            decide (c.id ∉ (T.filter (fun c => effCloseB x c)).map
              Creature.id)) := by
        intro l
        rw [unasg, unasg, List.filter_filter]
        apply List.filter_congr
        intro c _
        by_cases h1 : c.id ∈ A <;> by_cases h2 : c.id = x.id <;>
          by_cases h3 : c.id ∈ (T.filter (fun c => effCloseB x c)).map
            Creature.id <;>
          simp [hmemA', h1, h2, h3]
      have hfinT : T.filter
          (fun c => decide (¬c.id = x.id) &&
            decide (c.id ∉ (T.filter (fun c => effCloseB x c)).map
              Creature.id)) =
          T.filter (fun c => !(effCloseB x c)) := by
        apply List.filter_congr
        intro c hc
        have h2 : ¬c.id = x.id := hTid c hc
        by_cases h : effCloseB x c = true
        · simp [h2, (hsel c hc).mpr h, h]
        · have h3 : c.id ∉ (T.filter (fun c => effCloseB x c)).map
              Creature.id := fun hmem => h ((hsel c hc).mp hmem)
          simp [h2, h3, h]
      have hK2 : unasg A' irest = T.filter (fun c => !(effCloseB x c)) := by
        rw [hsplit irest, ← hT, hfinT]
      have hK3 : unasg A' cs = T.filter (fun c => !(effCloseB x c)) := by
        rw [hsplit cs, hxT, List.filter_cons, if_neg (by simp), hfinT]
      have hinvA' : unasg A' irest = unasg A' cs := by
        rw [hK2, hK3]
      rw [hK1, ih hndirest A'
        (done ++ [[x] ++ T.filter (fun c => effCloseB x c)]) hinvA']
      rw [hK3, hxT, specClusters]
      simp

/-- C4: on a population with distinct creature ids, the clustering pass of
`World.checkSpeciation` produces exactly the partition the claim describes:
iterating creatures in population order, each not-yet-assigned creature
seeds a new cluster, and every later-considered unassigned creature joins
that cluster if and only if its effective distance to the seed (not to any
other member) is strictly below 0.35 — where the effective distance is the
Euclidean genetic distance plus 0.15 exactly when both creatures have biome
residency ≥ 200 ticks and different current biome ids (`effCloseB`, proved
equivalent to the `Real.sqrt` form by `effCloseB_iff_sqrt`). -/
theorem checkSpeciation_partitions (cs : List Creature)
    (hnd : (cs.map Creature.id).Nodup) :
    clusterPass cs = specClusters cs := by
  unfold clusterPass
  rw [outer_fold_eq cs hnd cs hnd [] [] rfl]
  simp [unasg]

/-- C4 witness population: ids 1–3; the first two genetically close, the
third distant. -/
def c4List : List Creature :=
  [mkCreature 1 (fun _ => 0) (100, 100) (0, 0) none,
   mkCreature 2 (fun _ => 1/10) (200, 100) (0, 0) none,
   mkCreature 3 (fun _ => 1) (300, 100) (0, 0) none]

/-- Witness for C4 at a concrete population. -/
theorem checkSpeciation_partitions_witness :
    (c4List.map Creature.id).Nodup ∧ clusterPass c4List = specClusters c4List :=
  ⟨by with_unfolding_all decide,
    checkSpeciation_partitions c4List (by with_unfolding_all decide)⟩

/-! ### C5: `World.triggerExtinctionEvent`

The source shuffles the population array in place with a Fisher–Yates loop
(`for i = n-1 downto 1: j = floor(random*(i+1)); swap a[i] a[j]`), then
marks the first `floor(n*0.7)` entries dead and deletes them from the Map.
The per-iteration draws `j ≤ i` are supplied by the oracle `c`.
-/

/-- Swap the entries at positions `i` and `j`
(`[a[i], a[j]] = [a[j], a[i]]`). -/
def listSwap {α : Type} (l : List α) (i j : ℕ) : List α :=
  match l[i]?, l[j]? with
  | some a, some b => (l.set i b).set j a
  | _, _ => l

/-- The Fisher–Yates loop, counting the loop variable down from `i`. -/
def fyGo {α : Type} (c : ℕ → ℕ) : ℕ → List α → List α
  | 0, l => l
  | i + 1, l => fyGo c i (listSwap l (i + 1) (c (i + 1)))

/-- The full shuffle of `triggerExtinctionEvent`: loop from `length - 1`
down to `1`. -/
def fyShuffle {α : Type} (c : ℕ → ℕ) (l : List α) : List α :=
  fyGo c (l.length - 1) l

/-- `World.triggerExtinctionEvent`: shuffle, take the first
`floor(length * 0.7)` as the kill set, and delete them (by id) from the
creature collection. -/
def triggerExtinctionEvent (c : ℕ → ℕ) (creatures : List Creature) :
    List Creature :=
  let shuffled := fyShuffle c creatures
  let killCount := 7 * creatures.length / 10
  let killed := shuffled.take killCount
  creatures.filter fun x => !(killed.any fun k => k.id == x.id)

lemma listSwap_length {α : Type} (l : List α) (i j : ℕ) :
    (listSwap l i j).length = l.length := by
  unfold listSwap
  split <;> simp

lemma set_get_self {α : Type} :
    ∀ (l : List α) (i : ℕ) (a : α), l[i]? = some a → l.set i a = l := by
  intro l
  induction l with
  | nil => intro i a h; simp at h
  | cons x t ih =>
    intro i a h
    cases i with
    | zero =>
      simp at h
      simp [h]
    | succ m =>
      simp only [List.getElem?_cons_succ] at h
      simp [ih m a h]

lemma cons_set_perm {α : Type} :
    ∀ (t : List α) (k : ℕ) (x b : α), t[k]? = some b →
      (b :: t.set k x).Perm (x :: t) := by
  intro t
  induction t with
  | nil => intro k x b h; simp at h
  | cons y s ih =>
    intro k x b h
    cases k with
    | zero =>
      simp only [List.getElem?_cons_zero, Option.some_inj] at h
      rw [← h]
      exact List.Perm.swap x y s
    | succ m =>
      simp only [List.getElem?_cons_succ] at h
      exact (List.Perm.swap y b _).trans
        (((ih m x b h).cons y).trans (List.Perm.swap x y s))

lemma listSwap_perm_lt {α : Type} :
    ∀ (l : List α) (i j : ℕ), i < j → j < l.length →
      (listSwap l i j).Perm l := by
  intro l
  induction l with
  | nil =>
    intro i j _ hj
    simp at hj
  | cons x t ih =>
    intro i j hij hj
    cases i with
    | zero =>
      cases j with
      | zero => omega
      | succ k =>
        have hk : k < t.length := by simpa using hj
        obtain ⟨b, hb⟩ : ∃ b, t[k]? = some b :=
          ⟨t[k], List.getElem?_eq_getElem hk⟩
        have hred : listSwap (x :: t) 0 (k + 1) = b :: t.set k x := by
          unfold listSwap
          simp [hb]
        rw [hred]
        exact cons_set_perm t k x b hb
    | succ m =>
      cases j with
      | zero => omega
      | succ k =>
        have hk : k < t.length := by simpa using hj
        have hm : m < t.length := by omega
        obtain ⟨a, ha⟩ : ∃ a, t[m]? = some a :=
          ⟨t[m], List.getElem?_eq_getElem hm⟩
        obtain ⟨b, hb⟩ : ∃ b, t[k]? = some b :=
          ⟨t[k], List.getElem?_eq_getElem hk⟩
        have hred : listSwap (x :: t) (m + 1) (k + 1) =
            x :: listSwap t m k := by
          unfold listSwap
          simp only [List.getElem?_cons_succ]
          rw [ha, hb]
          rfl
        rw [hred]
        exact (ih m k (by omega) hk).cons x

lemma listSwap_comm {α : Type} (l : List α) (i j : ℕ) (h : i ≠ j) :
    listSwap l i j = listSwap l j i := by
  unfold listSwap
  rcases h1 : l[i]? with _ | a <;> rcases h2 : l[j]? with _ | b <;> simp
  exact List.set_comm b a l h

lemma listSwap_perm {α : Type} (l : List α) (i j : ℕ)
    (hi : i < l.length) (hj : j < l.length) : (listSwap l i j).Perm l := by
  rcases lt_trichotomy i j with h | h | h
  · exact listSwap_perm_lt l i j h hj
  · subst h
    obtain ⟨a, ha⟩ : ∃ a, l[i]? = some a :=
      ⟨l[i], List.getElem?_eq_getElem hi⟩
    have hred : listSwap l i i = l := by
      unfold listSwap
      rw [ha]
      simp only [List.set_set]
      exact set_get_self l i a ha
    rw [hred]
  · rw [listSwap_comm l i j (by omega)]
    exact listSwap_perm_lt l j i h hi

lemma fyGo_length {α : Type} (c : ℕ → ℕ) :
    ∀ (i : ℕ) (l : List α), (fyGo c i l).length = l.length := by
  intro i
  induction i with
  | zero => intro l; rfl
  | succ i ih =>
    intro l
    rw [fyGo, ih, listSwap_length]

lemma fyGo_perm {α : Type} (c : ℕ → ℕ) (hv : ∀ k, c k ≤ k) :
    ∀ (i : ℕ) (l : List α), i < l.length → (fyGo c i l).Perm l := by
  intro i
  induction i with
  | zero => intro l _; rfl
  | succ i ih =>
    intro l hlen
    have hsw : (listSwap l (i + 1) (c (i + 1))).Perm l :=
      listSwap_perm l (i + 1) (c (i + 1)) hlen
        (lt_of_le_of_lt (hv (i + 1)) hlen)
    rw [fyGo]
    exact (ih _ (by rw [listSwap_length]; omega)).trans hsw

lemma fyShuffle_perm {α : Type} (c : ℕ → ℕ) (hv : ∀ k, c k ≤ k)
    (l : List α) : (fyShuffle c l).Perm l := by
  unfold fyShuffle
  rcases l with _ | ⟨x, t⟩
  · rfl
  · exact fyGo_perm c hv _ _ (by simp)

lemma listSwap_get_gt {α : Type} (l : List α) (i j p : ℕ)
    (hpi : i < p) (hpj : j < p) : (listSwap l i j)[p]? = l[p]? := by
  unfold listSwap
  split
  · rw [List.getElem?_set_ne (by omega), List.getElem?_set_ne (by omega)]
  · rfl

lemma listSwap_get_left {α : Type} (l : List α) (i j : ℕ)
    (hj : j ≤ i) (hi : i < l.length) : (listSwap l i j)[i]? = l[j]? := by
  have hjl : j < l.length := by omega
  obtain ⟨a, ha⟩ : ∃ a, l[i]? = some a := ⟨l[i], List.getElem?_eq_getElem hi⟩
  obtain ⟨b, hb⟩ : ∃ b, l[j]? = some b := ⟨l[j], List.getElem?_eq_getElem hjl⟩
  have hred : listSwap l i j = (l.set i b).set j a := by
    unfold listSwap
    rw [ha, hb]
  rw [hred, hb]
  by_cases hij : j = i
  · subst hij
    rw [List.set_set, List.getElem?_set_self (by simpa using hi)]
    have hab : a = b := by
      rw [ha] at hb
      exact Option.some_inj.mp hb
    rw [hab]
  · rw [List.getElem?_set_ne hij, List.getElem?_set_self (by simpa using hi)]

lemma fyGo_get_gt {α : Type} (c : ℕ → ℕ) (hv : ∀ k, c k ≤ k) :
    ∀ (i : ℕ) (l : List α) (p : ℕ), i < p → (fyGo c i l)[p]? = l[p]? := by
  intro i
  induction i with
  | zero => intro l p _; rfl
  | succ i ih =>
    intro l p hip
    rw [fyGo, ih _ p (by omega),
      listSwap_get_gt l (i + 1) (c (i + 1)) p hip
        (lt_of_le_of_lt (hv (i + 1)) hip)]

lemma fyGo_get_top {α : Type} (c : ℕ → ℕ) (hv : ∀ k, c k ≤ k)
    (i : ℕ) (l : List α) (h : i + 1 < l.length) :
    (fyGo c (i + 1) l)[i + 1]? = l[c (i + 1)]? := by
  rw [fyGo, fyGo_get_gt c hv i _ (i + 1) (by omega),
    listSwap_get_left l (i + 1) (c (i + 1)) (hv (i + 1)) h]

/-- Fisher–Yates decoding: for a fixed duplicate-free input, the shuffle
output determines every swap choice — the map from choice sequences to
outputs is injective. -/
lemma fyGo_inj {α : Type} :
    ∀ (i : ℕ) (l : List α) (c₁ c₂ : ℕ → ℕ),
      i < l.length → l.Nodup → (∀ k, c₁ k ≤ k) → (∀ k, c₂ k ≤ k) →
      fyGo c₁ i l = fyGo c₂ i l →
      ∀ k, 1 ≤ k → k ≤ i → c₁ k = c₂ k := by
  intro i
  induction i with
  | zero =>
    intro l c₁ c₂ _ _ _ _ _ k hk1 hk0
    omega
  | succ i ih =>
    intro l c₁ c₂ hlen hnd hv₁ hv₂ heq k hk1 hki
    have htop : l[c₁ (i + 1)]? = l[c₂ (i + 1)]? := by
      rw [← fyGo_get_top c₁ hv₁ i l hlen, ← fyGo_get_top c₂ hv₂ i l hlen, heq]
    have hc : c₁ (i + 1) = c₂ (i + 1) :=
      List.getElem?_inj (lt_of_le_of_lt (hv₁ (i + 1)) hlen) hnd htop
    by_cases hk : k ≤ i
    · have heq' : fyGo c₁ i (listSwap l (i + 1) (c₁ (i + 1))) =
          fyGo c₂ i (listSwap l (i + 1) (c₁ (i + 1))) := by
        have h1 : fyGo c₁ (i + 1) l =
            fyGo c₁ i (listSwap l (i + 1) (c₁ (i + 1))) := rfl
        have h2 : fyGo c₂ (i + 1) l =
            fyGo c₂ i (listSwap l (i + 1) (c₂ (i + 1))) := rfl
        rw [← h1, heq, h2, hc]
      have hswnd : (listSwap l (i + 1) (c₁ (i + 1))).Nodup :=
        ((listSwap_perm l (i + 1) (c₁ (i + 1)) hlen
          (lt_of_le_of_lt (hv₁ (i + 1)) hlen)).nodup_iff).mpr hnd
      exact ih (listSwap l (i + 1) (c₁ (i + 1))) c₁ c₂
        (by rw [listSwap_length]; omega) hswnd hv₁ hv₂ heq' k hk1 hk
    · have hkeq : k = i + 1 := by omega
      rw [hkeq]
      exact hc

/-- The space of Fisher–Yates choice sequences for a list of length `m + 1`:
position `i` of the loop (counted from 1 as `i+1`) draws uniformly from
`{0, ..., i+1}`, i.e. `Fin (i + 2)`. -/
abbrev ChoiceSpace (m : ℕ) := (i : Fin m) → Fin (i.1 + 2)

/-- Interpret a choice sequence as the oracle of `fyShuffle`. -/
def extendChoices (m : ℕ) (f : ChoiceSpace m) : ℕ → ℕ := fun k =>
  if h : k - 1 < m then (if k = 0 then 0 else (f ⟨k - 1, h⟩).1) else 0

lemma extendChoices_valid (m : ℕ) (f : ChoiceSpace m) :
    ∀ k, extendChoices m f k ≤ k := by
  intro k
  unfold extendChoices
  split <;> rename_i h
  · split
    · omega
    · have h2 := (f ⟨k - 1, h⟩).2
      have h3 : ((⟨k - 1, h⟩ : Fin m) : ℕ) = k - 1 := rfl
      omega
  · omega

/-- The number of Fisher–Yates choice sequences is the factorial: there are
`∏ (i+2) = (m+1)!` of them for a list of length `m + 1`. -/
lemma choiceSpace_card (m : ℕ) :
    Fintype.card (ChoiceSpace m) = (m + 1).factorial := by
  induction m with
  | zero =>
    rw [Fintype.card_pi]
    simp
  | succ m ih =>
    rw [Fintype.card_pi] at ih ⊢
    rw [Fin.prod_univ_castSucc]
    simp only [Fintype.card_fin, Fin.coe_castSucc, Fin.val_last] at ih ⊢
    rw [ih, Nat.factorial_succ (m + 1)]
    ring

/-- The shuffle is injective in the choice sequence (for a duplicate-free
input list): uniform independent choices therefore induce the uniform
distribution on the `(length)!` permutations. -/
lemma fyShuffle_choice_injective {α : Type} (l : List α) (hnd : l.Nodup) :
    Function.Injective (fun f : ChoiceSpace (l.length - 1) =>
      fyShuffle (extendChoices (l.length - 1) f) l) := by
  intro f₁ f₂ heq
  funext i
  have hlen : i.1 + 1 < l.length := by
    have := i.2
    omega
  have hk := fyGo_inj (l.length - 1) l
    (extendChoices (l.length - 1) f₁) (extendChoices (l.length - 1) f₂)
    (by omega) hnd
    (extendChoices_valid _ f₁) (extendChoices_valid _ f₂)
    heq (i.1 + 1) (by omega) (by omega)
  unfold extendChoices at hk
  rw [dif_pos (by omega : i.1 + 1 - 1 < l.length - 1),
    dif_pos (by omega : i.1 + 1 - 1 < l.length - 1)] at hk
  simp only [Nat.add_sub_cancel] at hk
  apply Fin.ext
  simpa using hk

lemma length_filter_not_add {α : Type} (l : List α) (p : α → Bool) :
    (l.filter fun a => !(p a)).length + (l.filter p).length = l.length := by
  induction l with
  | nil => rfl
  | cons x t ih =>
    by_cases h : p x = true
    · simp [List.filter_cons, h, ← ih]
      omega
    · rw [Bool.not_eq_true] at h
      simp [List.filter_cons, h, ← ih]
      omega

/-- The creatures whose ids occur in the kill prefix of the shuffle are in
bijection with that prefix: their count is exactly the kill count. -/
lemma killed_filter_count (cr : List Creature)
    (hnd : (cr.map Creature.id).Nodup) (c : ℕ → ℕ) (hv : ∀ k, c k ≤ k) :
    (cr.filter fun x => ((fyShuffle c cr).take (7 * cr.length / 10)).any
        (fun k => k.id == x.id)).length = 7 * cr.length / 10 := by
  set killCount := 7 * cr.length / 10 with hkc
  set shuffled := fyShuffle c cr with hsh
  set P : Creature → Bool :=
    fun x => (shuffled.take killCount).any (fun k => k.id == x.id) with hP
  have hperm : cr.Perm shuffled := (fyShuffle_perm c hv cr).symm
  have hpermf : (cr.filter P).Perm (shuffled.filter P) := hperm.filter P
  have hndsh : (shuffled.map Creature.id).Nodup := by
    have : (cr.map Creature.id).Perm (shuffled.map Creature.id) :=
      hperm.map Creature.id
    exact this.nodup_iff.mp hnd
  have hsplit : shuffled = shuffled.take killCount ++
      shuffled.drop killCount := (List.take_append_drop killCount shuffled).symm
  have hndapp : ((shuffled.take killCount).map Creature.id).Disjoint
      ((shuffled.drop killCount).map Creature.id) := by
    rw [hsplit, List.map_append, List.nodup_append] at hndsh
    exact hndsh.2.2
  have hkill : (shuffled.take killCount).filter P = shuffled.take killCount := by
    rw [List.filter_eq_self]
    intro k hk
    rw [hP, List.any_eq_true]
    exact ⟨k, hk, by simp⟩
  have hdrop : (shuffled.drop killCount).filter P = [] := by
    rw [List.filter_eq_nil_iff]
    intro d hd
    rw [hP, Bool.not_eq_true, List.any_eq_false]
    intro k hk hbeq
    have hid : k.id = d.id := by simpa using hbeq
    exact hndapp (List.mem_map_of_mem Creature.id hk)
      (hid ▸ List.mem_map_of_mem Creature.id hd)
  have hlen : (cr.filter P).length = killCount := by
    rw [hpermf.length_eq]
    conv_lhs => rw [hsplit]
    rw [List.filter_append, hkill, hdrop, List.append_nil,
      List.length_take]
    have h7 : killCount ≤ cr.length := by
      rw [hkc]
      omega
    rw [hperm.length_eq] at h7
    omega
  exact hlen

/-- C5: a single `triggerExtinctionEvent()` call on a population of size N
(with distinct ids) removes exactly `floor(N * 0.7)` creatures (so N = 0 and
N = 1 remove none, and the empty population is a no-op), the kill set being
a prefix of a Fisher–Yates shuffle: the shuffle is a permutation of the
population, its output determines the per-iteration draws uniquely
(injectivity), and the number of draw sequences equals N! — together, the
unbiasedness of the shuffle-and-take. -/
theorem triggerExtinctionEvent_spec (cr : List Creature) (c : ℕ → ℕ)
    (hvalid : ∀ k, c k ≤ k) (hnd : (cr.map Creature.id).Nodup) :
    (triggerExtinctionEvent c cr).length = cr.length - 7 * cr.length / 10 ∧
    cr.length - (triggerExtinctionEvent c cr).length = 7 * cr.length / 10 ∧
    (fyShuffle c cr).Perm cr ∧
    Function.Injective (fun f : ChoiceSpace (cr.length - 1) =>
      fyShuffle (extendChoices (cr.length - 1) f) cr) ∧
    Fintype.card (ChoiceSpace (cr.length - 1)) = Nat.factorial cr.length := by
  have hcount := killed_filter_count cr hnd c hvalid
  have hlen : (triggerExtinctionEvent c cr).length =
      cr.length - 7 * cr.length / 10 := by
    simp only [triggerExtinctionEvent]
    have hadd := length_filter_not_add cr
      (fun x => ((fyShuffle c cr).take (7 * cr.length / 10)).any
        (fun k => k.id == x.id))
    omega
  have hrem : cr.length - (triggerExtinctionEvent c cr).length =
      7 * cr.length / 10 := by
    rw [hlen]
    omega
  refine ⟨hlen, hrem, fyShuffle_perm c hvalid cr,
    fyShuffle_choice_injective cr (hnd.of_map), ?_⟩
  rw [choiceSpace_card]
  rcases Nat.eq_zero_or_pos cr.length with h0 | hpos
  · rw [h0]
    rfl
  · congr 1
    omega

/-- C5 witness population: three creatures with distinct ids;
`floor(3 * 0.7) = 2` are removed. -/
theorem triggerExtinctionEvent_spec_witness :
    ((∀ k, (fun _ => 0 : ℕ → ℕ) k ≤ k) ∧
      ((c4List.map Creature.id).Nodup)) ∧
    ((triggerExtinctionEvent (fun _ => 0) c4List).length =
        c4List.length - 7 * c4List.length / 10 ∧
      c4List.length - (triggerExtinctionEvent (fun _ => 0) c4List).length =
        7 * c4List.length / 10 ∧
      (fyShuffle (fun _ => 0) c4List).Perm c4List ∧
      Function.Injective (fun f : ChoiceSpace (c4List.length - 1) =>
        fyShuffle (extendChoices (c4List.length - 1) f) c4List) ∧
      Fintype.card (ChoiceSpace (c4List.length - 1)) =
        Nat.factorial c4List.length) :=
  ⟨⟨fun _ => Nat.zero_le _, by with_unfolding_all decide⟩,
    triggerExtinctionEvent_spec c4List (fun _ => 0)
      (fun _ => Nat.zero_le _) (by with_unfolding_all decide)⟩

/-! ### C7: species promotion and registry freshness
(`World.checkSpeciation`, promotion phase)

The display-label text is a pure function of the id string (a rolling hash
into two fixed word lists) and carries no registry information; only the
label map's keys matter to the claims, so label values are not modelled.
Colors store the (hue, saturation) pair of the representative genome; the
CSS formatting is presentation-only.
-/

structure SpeciationEvent where
  parentSpeciesId : SId
  childSpeciesId : SId
  tick : ℕ
  ancestorId : Option ℕ
  hue : ℚ
  sat : ℚ
  isAllopatric : Bool
  sourceBiomeId : Fin 5
deriving DecidableEq

/-- The species-registry slice of `World` state: the `nextSpeciesId`
counter, the `speciesColors` and `speciesLabels` maps (insertion-ordered
key lists), the per-biome allopatric counters, and the emitted events. -/
structure SpecRegistry where
  nextSpeciesId : ℕ
  speciesColors : List (SId × ℚ × ℚ)
  speciesLabels : List SId
  eventsByBiome : List (Fin 5 × ℕ)
  events : List SpeciationEvent
deriving DecidableEq

/-- The registry as `World`'s constructor and `initialize` set it up:
counter 1, only `'primordial'` registered (color hsl(140, 65%, 45%)). -/
def initialRegistry : SpecRegistry :=
  ⟨1, [(SId.primordial, 140, 65)], [SId.primordial], [], []⟩

/-- Distinct species ids of a cluster in first-occurrence order (the JS Map
key order of `speciesCounts`). -/
def speciesKeysOf (cluster : List Creature) : List SId :=
  cluster.foldl
    (fun ks c => if c.speciesId ∈ ks then ks else ks ++ [c.speciesId]) []

/-- The member list of one species group of a cluster. -/
def groupOf (cluster : List Creature) (s : SId) : List Creature :=
  cluster.filter fun c => c.speciesId == s

/-- The dominant species of a cluster: scanning the group keys in insertion
order, keep the first one attaining the running strict maximum count. -/
def dominantIdOf (cluster : List Creature) : SId :=
  match (speciesKeysOf cluster).foldl
      (fun best sid =>
        if best.2 < (groupOf cluster sid).length
        then (some sid, (groupOf cluster sid).length) else best)
      ((none : Option SId), 0) with
  | (some d, _) => d
  | (none, _) => SId.primordial

/-- Distinct values in first-occurrence order (JS Map key order). -/
def firstOccs (l : List (Fin 5)) : List (Fin 5) :=
  l.foldl (fun ks v => if v ∈ ks then ks else ks ++ [v]) []

/-- `modalValue` from world.ts: the most frequent value, first-seen winning
ties, 0 on the empty list. -/
def modalValue (arr : List (Fin 5)) : Fin 5 :=
  ((firstOccs arr).foldl
    (fun best v =>
      if best.2 < (arr.filter (fun w => w == v)).length
      then (v, (arr.filter (fun w => w == v)).length) else best)
    ((0 : Fin 5), 0)).1

/-- Increment of the `speciationEventsByBiome` map. -/
def bumpBiome (l : List (Fin 5 × ℕ)) (b : Fin 5) : List (Fin 5 × ℕ) :=
  match l.find? (fun p => p.1 == b) with
  | some _ => l.map fun p => if p.1 == b then (p.1, p.2 + 1) else p
  | none => l ++ [(b, 1)]

/-- Promotion of one species group of a cluster (the body of the inner loop
of `checkSpeciation`): skip the dominant id and groups below 3 members;
otherwise allocate a fresh species id from the counter, register its color
and label, bump the allopatric counter when the modal biomes differ,
collect the members' reassignments and emit the speciation event. -/
def promoteGroup (tick : ℕ) (cluster : List Creature) (dominantId : SId)
    (acc : SpecRegistry × List (ℕ × SId)) (sid : SId) :
    SpecRegistry × List (ℕ × SId) :=
  let reg := acc.1
  if sid = dominantId then acc
  else if (groupOf cluster sid).length < 3 then acc
  else
    match groupOf cluster sid with
    | [] => acc
    | rep :: _ =>
      let parentModal := modalValue ((groupOf cluster dominantId).map lastBiome)
      let childModal := modalValue ((groupOf cluster sid).map lastBiome)
      let isAllopatric := decide (parentModal ≠ childModal)
      let newSpeciesId := SId.species reg.nextSpeciesId
      let hue := rep.genome 4 * 360
      let sat := 50 + rep.genome 5 * 40
      ({ nextSpeciesId := reg.nextSpeciesId + 1
         speciesColors := reg.speciesColors ++ [(newSpeciesId, hue, sat)]
         speciesLabels := reg.speciesLabels ++ [newSpeciesId]
         eventsByBiome := if isAllopatric
           then bumpBiome reg.eventsByBiome parentModal
           else reg.eventsByBiome
         events := reg.events ++
           [⟨sid, newSpeciesId, tick, rep.ancestorId, hue, sat,
             isAllopatric, parentModal⟩] },
       acc.2 ++ (groupOf cluster sid).map (fun c => (c.id, newSpeciesId)))

/-- Promotion over one cluster: clusters below 4 members or with a single
species are skipped; otherwise every non-dominant group of at least 3
members is promoted, in group-key order. -/
def promoteCluster (tick : ℕ) (acc : SpecRegistry × List (ℕ × SId))
    (cluster : List Creature) : SpecRegistry × List (ℕ × SId) :=
  if cluster.length < 4 then acc
  else if (speciesKeysOf cluster).length ≤ 1 then acc
  else (speciesKeysOf cluster).foldl
    (promoteGroup tick cluster (dominantIdOf cluster)) acc

/-- The promotion phase of `checkSpeciation` over all clusters, also
returning the species reassignments (creature id, new species id). -/
def runSpeciationPass (tick : ℕ) (reg : SpecRegistry)
    (clusters : List (List Creature)) : SpecRegistry × List (ℕ × SId) :=
  clusters.foldl (promoteCluster tick) (reg, [])

/-- The key list of the color map. -/
def keysOfColors (l : List (SId × ℚ × ℚ)) : List SId := l.map Prod.fst

/-- How one promotion step (or pass) extends the registry: the counter only
grows, and the events, color keys and label keys are all extended by
exactly `species k` for the freshly allocated counter values `k`, in
order. -/
def PassExtends (reg reg' : SpecRegistry) : Prop :=
  reg.nextSpeciesId ≤ reg'.nextSpeciesId ∧
  (∃ es, reg'.events = reg.events ++ es) ∧
  reg'.events.map SpeciationEvent.childSpeciesId =
    (reg.events.map SpeciationEvent.childSpeciesId) ++
      (List.range' reg.nextSpeciesId
        (reg'.nextSpeciesId - reg.nextSpeciesId)).map SId.species ∧
  keysOfColors reg'.speciesColors =
    keysOfColors reg.speciesColors ++
      (List.range' reg.nextSpeciesId
        (reg'.nextSpeciesId - reg.nextSpeciesId)).map SId.species ∧
  reg'.speciesLabels =
    reg.speciesLabels ++
      (List.range' reg.nextSpeciesId
        (reg'.nextSpeciesId - reg.nextSpeciesId)).map SId.species

lemma PassExtends_refl (reg : SpecRegistry) : PassExtends reg reg := by
  refine ⟨le_refl _, ⟨[], by simp⟩, ?_, ?_, ?_⟩ <;> simp

lemma PassExtends_trans {a b c : SpecRegistry}
    (h1 : PassExtends a b) (h2 : PassExtends b c) : PassExtends a c := by
  obtain ⟨hn1, ⟨es1, hes1⟩, hev1, hcol1, hlab1⟩ := h1
  obtain ⟨hn2, ⟨es2, hes2⟩, hev2, hcol2, hlab2⟩ := h2
  have hglue : List.range' a.nextSpeciesId
        (b.nextSpeciesId - a.nextSpeciesId) ++
      List.range' b.nextSpeciesId (c.nextSpeciesId - b.nextSpeciesId) =
      List.range' a.nextSpeciesId (c.nextSpeciesId - a.nextSpeciesId) := by
    have hb : List.range' b.nextSpeciesId
        (c.nextSpeciesId - b.nextSpeciesId) =
        List.range' (a.nextSpeciesId + (b.nextSpeciesId - a.nextSpeciesId))
          (c.nextSpeciesId - b.nextSpeciesId) := by
      congr 1
      omega
    rw [hb, List.range'_append_1]
    congr 1
    omega
  have hrange : (List.range' a.nextSpeciesId
        (b.nextSpeciesId - a.nextSpeciesId)).map SId.species ++
      (List.range' b.nextSpeciesId
        (c.nextSpeciesId - b.nextSpeciesId)).map SId.species =
      (List.range' a.nextSpeciesId
        (c.nextSpeciesId - a.nextSpeciesId)).map SId.species := by
    rw [← List.map_append, hglue]
  refine ⟨le_trans hn1 hn2, ⟨es1 ++ es2, by rw [hes2, hes1, List.append_assoc]⟩,
    ?_, ?_, ?_⟩
  · rw [hev2, hev1, List.append_assoc, hrange]
  · rw [hcol2, hcol1, List.append_assoc, hrange]
  · rw [hlab2, hlab1, List.append_assoc, hrange]

lemma promoteGroup_extends (tick : ℕ) (cluster : List Creature)
    (dominantId : SId) (acc : SpecRegistry × List (ℕ × SId)) (sid : SId) :
    PassExtends acc.1 (promoteGroup tick cluster dominantId acc sid).1 := by
  unfold promoteGroup
  split
  · exact PassExtends_refl _
  · split
    · exact PassExtends_refl _
    · split
      · exact PassExtends_refl _
      · dsimp only
        refine ⟨by dsimp only; omega, ⟨_, rfl⟩, ?_, ?_, ?_⟩ <;>
          simp [keysOfColors, Nat.add_sub_cancel_left]

lemma foldl_extends {β : Type}
    (step : SpecRegistry × List (ℕ × SId) → β → SpecRegistry × List (ℕ × SId))
    (hstep : ∀ acc b, PassExtends acc.1 (step acc b).1) :
    ∀ (l : List β) (acc : SpecRegistry × List (ℕ × SId)),
      PassExtends acc.1 (l.foldl step acc).1 := by
  intro l
  induction l with
  | nil => intro acc; exact PassExtends_refl _
  | cons x t ih =>
    intro acc
    rw [List.foldl_cons]
    exact PassExtends_trans (hstep acc x) (ih (step acc x))

lemma promoteCluster_extends (tick : ℕ)
    (acc : SpecRegistry × List (ℕ × SId)) (cluster : List Creature) :
    PassExtends acc.1 (promoteCluster tick acc cluster).1 := by
  unfold promoteCluster
  split
  · exact PassExtends_refl _
  · split
    · exact PassExtends_refl _
    · exact foldl_extends _ (promoteGroup_extends tick cluster
        (dominantIdOf cluster)) (speciesKeysOf cluster) acc

lemma runSpeciationPass_extends (tick : ℕ) (reg : SpecRegistry)
    (clusters : List (List Creature)) :
    PassExtends reg (runSpeciationPass tick reg clusters).1 :=
  foldl_extends _ (fun acc cl => promoteCluster_extends tick acc cl)
    clusters (reg, [])

/-- Well-formedness of the registry: every registered numbered species id
and every emitted child id is below the counter, and the emitted child ids
are distinct. -/
def RegistryWF (reg : SpecRegistry) : Prop :=
  (∀ n, SId.species n ∈ keysOfColors reg.speciesColors →
    n < reg.nextSpeciesId) ∧
  (∀ n, SId.species n ∈ reg.speciesLabels → n < reg.nextSpeciesId) ∧
  (∀ e ∈ reg.events, ∃ n, e.childSpeciesId = SId.species n ∧
    n < reg.nextSpeciesId) ∧
  (reg.events.map SpeciationEvent.childSpeciesId).Nodup

lemma initialRegistry_wf : RegistryWF initialRegistry := by
  refine ⟨?_, ?_, ?_, ?_⟩
  · intro n hn
    simp [initialRegistry, keysOfColors] at hn
  · intro n hn
    simp [initialRegistry] at hn
  · intro e he
    simp [initialRegistry] at he
  · simp [initialRegistry]

/-- C7: starting from a well-formed registry, every speciation event newly
emitted by the promotion pass carries a `childSpeciesId` that is absent from
both the color map and the label map before the pass and present in both
after it; the emitted child ids never repeat (within and across passes:
well-formedness is preserved, so later passes allocate strictly larger
ids). -/
theorem checkSpeciation_fresh_child_ids (tick : ℕ) (reg : SpecRegistry)
    (clusters : List (List Creature)) (hwf : RegistryWF reg) :
    RegistryWF (runSpeciationPass tick reg clusters).1 ∧
    (∀ e ∈ (runSpeciationPass tick reg clusters).1.events, e ∉ reg.events →
      e.childSpeciesId ∉ keysOfColors reg.speciesColors ∧
      e.childSpeciesId ∉ reg.speciesLabels ∧
      e.childSpeciesId ∈
        keysOfColors (runSpeciationPass tick reg clusters).1.speciesColors ∧
      e.childSpeciesId ∈ (runSpeciationPass tick reg clusters).1.speciesLabels) ∧
    ((runSpeciationPass tick reg clusters).1.events.map
      SpeciationEvent.childSpeciesId).Nodup := by
  obtain ⟨hwfc, hwfl, hwfe, hwfn⟩ := hwf
  obtain ⟨hle, ⟨es, hes⟩, hev, hcol, hlab⟩ :=
    runSpeciationPass_extends tick reg clusters
  set reg' := (runSpeciationPass tick reg clusters).1 with hreg'
  have hesmap : es.map SpeciationEvent.childSpeciesId =
      (List.range' reg.nextSpeciesId
        (reg'.nextSpeciesId - reg.nextSpeciesId)).map SId.species := by
    have := hev
    rw [hes, List.map_append] at this
    exact List.append_cancel_left this
  have hnewid : ∀ e ∈ es, ∃ n, e.childSpeciesId = SId.species n ∧
      reg.nextSpeciesId ≤ n ∧ n < reg'.nextSpeciesId := by
    intro e he
    have : e.childSpeciesId ∈ es.map SpeciationEvent.childSpeciesId :=
      List.mem_map_of_mem _ he
    rw [hesmap] at this
    rw [List.mem_map] at this
    obtain ⟨n, hn, hne⟩ := this
    rw [List.mem_range'] at hn
    obtain ⟨i, hi, hni⟩ := hn
    exact ⟨n, hne.symm, by omega, by omega⟩
  have hnodup' : (reg'.events.map SpeciationEvent.childSpeciesId).Nodup := by
    rw [hev, List.nodup_append]
    refine ⟨hwfn, ?_, ?_⟩
    · exact (List.nodup_range' _ _ _ (by norm_num)).map
        (fun a b h => SId.species.inj h)
    · intro x hx hx2
      obtain ⟨e, he, hxe⟩ := List.mem_map.mp hx
      obtain ⟨n, hn, hlt⟩ := hwfe e he
      rw [List.mem_map] at hx2
      obtain ⟨m, hm, hmx⟩ := hx2
      rw [List.mem_range'] at hm
      obtain ⟨i, hi, hmi⟩ := hm
      rw [← hxe, hn] at hmx
      have : m = n := SId.species.inj hmx
      omega
  refine ⟨⟨?_, ?_, ?_, hnodup'⟩, ?_, hnodup'⟩
  · intro n hn
    rw [hcol, List.mem_append] at hn
    rcases hn with h | h
    · exact lt_of_lt_of_le (hwfc n h) hle
    · rw [List.mem_map] at h
      obtain ⟨m, hm, hmn⟩ := h
      rw [List.mem_range'] at hm
      obtain ⟨i, hi, hmi⟩ := hm
      have : m = n := SId.species.inj hmn
      omega
  · intro n hn
    rw [hlab, List.mem_append] at hn
    rcases hn with h | h
    · exact lt_of_lt_of_le (hwfl n h) hle
    · rw [List.mem_map] at h
      obtain ⟨m, hm, hmn⟩ := h
      rw [List.mem_range'] at hm
      obtain ⟨i, hi, hmi⟩ := hm
      have : m = n := SId.species.inj hmn
      omega
  · intro e he
    rw [hes, List.mem_append] at he
    rcases he with h | h
    · obtain ⟨n, hn, hlt⟩ := hwfe e h
      exact ⟨n, hn, lt_of_lt_of_le hlt hle⟩
    · obtain ⟨n, hn, _, hlt⟩ := hnewid e h
      exact ⟨n, hn, hlt⟩
  · intro e he henotold
    have hees : e ∈ es := by
      rw [hes, List.mem_append] at he
      rcases he with h | h
      · exact absurd h henotold
      · exact h
    obtain ⟨n, hn, hge, hlt⟩ := hnewid e hees
    have hmemnew : e.childSpeciesId ∈
        (List.range' reg.nextSpeciesId
          (reg'.nextSpeciesId - reg.nextSpeciesId)).map SId.species := by
      rw [hn, List.mem_map]
      exact ⟨n, List.mem_range'.mpr ⟨n - reg.nextSpeciesId, by omega, by omega⟩,
        rfl⟩
    refine ⟨?_, ?_, ?_, ?_⟩
    · intro hmem
      have := hwfc n (hn ▸ hmem)
      omega
    · intro hmem
      have := hwfl n (hn ▸ hmem)
      omega
    · rw [hcol, List.mem_append]
      exact Or.inr hmemnew
    · rw [hlab, List.mem_append]
      exact Or.inr hmemnew

/-- C7 witness cluster: seven creatures, four primordial (dominant) and
three of species 0, genetically identical — the species-0 group is
promoted to the fresh id species 1. -/
def c7Cluster : List Creature :=
  [mkCreature 1 (fun _ => 0) (100, 100) (0, 0) none,
   mkCreature 2 (fun _ => 0) (100, 100) (0, 0) none,
   mkCreature 3 (fun _ => 0) (100, 100) (0, 0) none,
   mkCreature 4 (fun _ => 0) (100, 100) (0, 0) none,
   { mkCreature 5 (fun _ => 0) (100, 100) (0, 0) none with
     speciesId := SId.species 0 },
   { mkCreature 6 (fun _ => 0) (100, 100) (0, 0) none with
     speciesId := SId.species 0 },
   { mkCreature 7 (fun _ => 0) (100, 100) (0, 0) none with
     speciesId := SId.species 0 }]

/-- Witness for C7: the pass on the initial registry and the concrete
cluster emits exactly one event, with the fresh child id species 1. -/
theorem checkSpeciation_fresh_child_ids_witness :
    RegistryWF initialRegistry ∧
    ((runSpeciationPass 1 initialRegistry [c7Cluster]).1.events.map
        SpeciationEvent.childSpeciesId = [SId.species 1]) ∧
    (RegistryWF (runSpeciationPass 1 initialRegistry [c7Cluster]).1 ∧
      (∀ e ∈ (runSpeciationPass 1 initialRegistry [c7Cluster]).1.events,
        e ∉ initialRegistry.events →
        e.childSpeciesId ∉ keysOfColors initialRegistry.speciesColors ∧
        e.childSpeciesId ∉ initialRegistry.speciesLabels ∧
        e.childSpeciesId ∈ keysOfColors
          (runSpeciationPass 1 initialRegistry [c7Cluster]).1.speciesColors ∧
        e.childSpeciesId ∈
          (runSpeciationPass 1 initialRegistry [c7Cluster]).1.speciesLabels) ∧
      ((runSpeciationPass 1 initialRegistry [c7Cluster]).1.events.map
        SpeciationEvent.childSpeciesId).Nodup) :=
  ⟨initialRegistry_wf, by with_unfolding_all decide,
    checkSpeciation_fresh_child_ids 1 initialRegistry [c7Cluster]
      initialRegistry_wf⟩

/-! ### C10: `World.advance` and the 600-pellet food cap -/

/-- The `World` state relevant to `advance`.  (`livingSpeciesCache` is a
private render cache and is not modelled.) -/
structure WorldState where
  creatures : List Creature
  foodPellets : List FoodPellet
  tick : ℕ
  generation : ℕ
  lastSpeciationCheck : ℕ
  nextCreatureId : ℕ
  registry : SpecRegistry
  biomeGrid : BiomeGrid
  mutationRate : ℚ
  foodAbundance : ℚ
  migrationLog : List ((Fin 5 × Fin 5) × ℕ)
  extinctionHistory : List (ℕ × SId)

/-- The `Math.random()` draws of one `advance()` call: per spawn attempt the
position draws, the acceptance draw and the pellet-energy draw; per creature
index its `UpdateRand`. -/
structure AdvanceRand where
  spawnX : ℕ → ℚ
  spawnY : ℕ → ℚ
  spawnAccept : ℕ → ℚ
  pelletE : ℕ → ℚ
  creatureRand : ℕ → UpdateRand

/-- Increment of the migration-log counter for one (from, to) key. -/
def bumpMigration (l : List ((Fin 5 × Fin 5) × ℕ)) (k : Fin 5 × Fin 5) :
    List ((Fin 5 × Fin 5) × ℕ) :=
  match l.find? (fun p => p.1 == k) with
  | some _ => l.map fun p => if p.1 == k then (p.1, p.2 + 1) else p
  | none => l ++ [(k, 1)]

/-- The full `World.checkSpeciation`: early return below 3 creatures;
cluster (`clusterPass`); promote (`runSpeciationPass`, allocating fresh ids,
registering colors and labels and emitting events); reassign the promoted
members' species ids; then append newly extinct species (registered but not
living and not yet recorded) to the extinction history. -/
def checkSpeciation (st : WorldState) : WorldState :=
  if st.creatures.length < 3 then st
  else
    let pr := runSpeciationPass st.tick st.registry (clusterPass st.creatures)
    let creatures2 := st.creatures.map fun c =>
      match pr.2.find? (fun p => p.1 == c.id) with
      | some p => { c with speciesId := p.2 }
      | none => c
    let living : List SId := creatures2.map (fun c => c.speciesId)
    let ext2 := (keysOfColors pr.1.speciesColors).foldl
      (fun (ex : List (ℕ × SId)) (sid : SId) =>
        if sid ∈ living then ex
        else if (ex.map Prod.snd).contains sid then ex
        else ex ++ [(st.tick, sid)])
      st.extinctionHistory
    { st with
      creatures := creatures2,
      registry := pr.1,
      extinctionHistory := ext2 }

/-- Accumulator of the per-creature loop of `advance`. -/
structure LoopAcc where
  creatures : List Creature
  pellets : List FoodPellet
  children : List Creature
  nextId : ℕ
  migration : List ((Fin 5 × Fin 5) × ℕ)

/-- The per-creature update loop of `advance`: iterate the population in
order (the JS Map is not structurally modified during the loop, so the
iteration covers the original entries, with in-place prey mutations visible
to later iterations), collect offspring aside, and log the biome transition
of each surviving creature. -/
def updateLoop (env : Env) (sq : ℚ → ℚ) (grid : BiomeGrid) (A : AdvanceRand)
    (n : ℕ) (init : LoopAcc) : LoopAcc :=
  (List.range n).foldl
    (fun acc k =>
      match acc.creatures[k]? with
      | none => acc
      | some self =>
        let prevBiomeId := (self.biomeHistory.getLast?).getD 0
        let r := update env sq grid (A.creatureRand k) acc.nextId
          acc.creatures acc.pellets self
        let acc2 : LoopAcc :=
          { creatures := r.others.set k r.self
            pellets := r.pellets
            children := acc.children ++ r.child.toList
            nextId := r.nextId
            migration := acc.migration }
        if r.self.dead then acc2
        else
          let newBiomeId := (r.self.biomeHistory.getLast?).getD 0
          if prevBiomeId ≠ newBiomeId then
            { acc2 with migration :=
                bumpMigration acc2.migration (prevBiomeId, newBiomeId) }
          else acc2)
    init

/-- `World.advance()`: tick increment; stochastic biome-weighted food
spawning; the single food-cap enforcement (oldest pellets evicted down to
600) BEFORE any creature update; the per-creature loop (whose death and
kill deposits append pellets with no further cap check); offspring
insertion; removal of the dead; generation increment every 500 ticks; and
the periodic speciation pass. -/
def advance (sq : ℚ → ℚ) (A : AdvanceRand) (st : WorldState) : WorldState :=
  let tick := st.tick + 1
  let rate := 2 * st.foodAbundance
  let spawnAttempts := Int.toNat ⌈rate * (3/2)⌉
  let pellets0 := (List.range spawnAttempts).foldl
    (fun ps k =>
      let x := A.spawnX k * 1200
      let y := A.spawnY k * 800
      let biomeFood := (BIOMES (getBiomeIdAt st.biomeGrid ⌊x / 10⌋ ⌊y / 10⌋)).food
      if A.spawnAccept k < biomeFood then ps ++ [⟨x, y, 8 + A.pelletE k * 12⟩]
      else ps)
    st.foodPellets
  let pellets1 := if 600 < pellets0.length
    then pellets0.drop (pellets0.length - 600) else pellets0
  let env : Env := ⟨1200, 800, st.mutationRate⟩
  let loop := updateLoop env sq st.biomeGrid A st.creatures.length
    ⟨st.creatures, pellets1, [], st.nextCreatureId, st.migrationLog⟩
  let creatures := (loop.creatures ++ loop.children).filter fun c => !c.dead
  let generation := if tick % 500 == 0 then st.generation + 1
    else st.generation
  let st2 : WorldState := { st with
    creatures := creatures,
    foodPellets := loop.pellets,
    tick := tick,
    generation := generation,
    nextCreatureId := loop.nextId,
    migrationLog := loop.migration }
  if 200 ≤ tick - st2.lastSpeciationCheck ∧ 5 ≤ st2.creatures.length then
    checkSpeciation { st2 with lastSpeciationCheck := tick }
  else st2

/-- C10 starting state: a world as produced by `initialize(1, 600)` a few
ticks in — exactly 600 pellets (all far from the creature) and one creature
about to starve. -/
def c10State : WorldState :=
  { creatures := [{ mkCreature 1 (fun _ => 0) (100, 100) (0, 0) none with
      energy := 1/100 }]
    foodPellets := List.replicate 600 ⟨1000, 700, 10⟩
    tick := 0
    generation := 0
    lastSpeciationCheck := 0
    nextCreatureId := 10
    registry := initialRegistry
    biomeGrid := fun _ _ => 0
    mutationRate := 1/50
    foodAbundance := 0
    migrationLog := []
    extinctionHistory := [] }

/-- C10 oracle (no spawn attempts occur at food abundance 0). -/
def c10A : AdvanceRand :=
  ⟨fun _ => 0, fun _ => 0, fun _ => 1, fun _ => 0,
    fun _ => ⟨fun _ => 0, 1, 1/2, 1/2, 1, 0, 0, fun _ => 0, 1/2, 1/2, 1/2, 1/2⟩⟩

set_option maxRecDepth 100000 in
/-- C10: the 600-pellet cap is enforced once per `advance()`, before any
creature update; pellets deposited later in the tick (here the 15-energy
death deposit) are appended without re-checking it, so a world holding
exactly 600 pellets ends the tick with 601 — strictly above the cap. -/
theorem advance_exceeds_food_cap :
    c10State.foodPellets.length = 600 ∧
    (advance (fun _ => 0) c10A c10State).foodPellets.length = 601 ∧
    600 < (advance (fun _ => 0) c10A c10State).foodPellets.length := by
  with_unfolding_all decide

end EvoSim
